import Mathlib

/-!
# Delegate member-function-pointer decoders (src/lib/util/delegate.cpp) and GMS handlers

A shallow embedding of `delegate.cpp`:

* `binding_type_exception`, its constructor and `what`,
* `delegate_mfp_itanium::convert_to_generic` (two-word, low-bit-tagged convention),
* `delegate_mfp_msvc::adjust_this_pointer` (variable-width convention),

followed by a model of the typed delegate built on them, whose class templates are
declared in `delegate.h`, and by an embedding of the register handlers and tile callbacks
of the GMS driver (`src/mame/misc/gms.cpp`).

Addresses are natural numbers below `2 ^ (8 * ptr_bytes)`; pointer arithmetic wraps
modulo that power.  Memory is a read-only byte map.  Both decoders are `const` member
functions taking the receiver by reference, so each is embedded as a function from the
descriptor, the memory and the incoming receiver to the values it leaves behind,
together with the list of memory accesses it performed, in program order.
-/

/-! ## Late binding exception (delegate.cpp, lines 45-58) -/

/-- The part of a `std::type_info` object that the exception uses: its identity (the
object's address) and the text returned by `name()`. -/
structure std.type_info where
  id : Nat
  name : String
deriving DecidableEq, Repr

/-- The data members of `binding_type_exception`: the two `type_info` pointers and the
message text. -/
structure binding_type_exception where
  m_target_type : std.type_info
  m_actual_type : std.type_info
  m_what : String
deriving DecidableEq, Repr

/-- Embedding of `binding_type_exception::what` (delegate.cpp, lines 55-58). -/
def binding_type_exception.what (self : binding_type_exception) : String :=
  self.m_what

/-- One call of `what` on an exception object: the member function is `const`, so the
object is left as it was, and the text of `m_what` is returned. -/
def binding_type_exception.what_call (self : binding_type_exception) :
    binding_type_exception × String :=
  (self, self.what)

set_option linter.dupNamespace false in
/-- Embedding of the constructor `binding_type_exception::binding_type_exception`
(delegate.cpp, lines 45-52). -/
def binding_type_exception.binding_type_exception (target_type actual_type : std.type_info) :
    binding_type_exception :=
  ⟨target_type, actual_type,
   "Error performing late bind of function expecting type " ++ target_type.name
     ++ " to instance of type " ++ actual_type.name⟩

namespace util.detail

/-- Build-time facts about the target that `delegate.cpp` takes from the compiler and
from `delegate.h`: the size of a pointer, the byte order, the two preprocessor switches
`MAME_DELEGATE_ITANIUM_ARM` and `MAME_DELEGATE_VT_DESCRIPTOR`, and the sizes of the two
layout structures `single_base_equiv` and `unknown_base_equiv`. -/
structure Target where
  /-- The value of `sizeof(void *)`. -/
  ptr_bytes : Nat
  /-- Whether multi-byte values are stored most significant byte first. -/
  big_endian : Bool
  /-- The switch `MAME_DELEGATE_ITANIUM_ARM`. -/
  MAME_DELEGATE_ITANIUM_ARM : Bool
  /-- The switch `MAME_DELEGATE_VT_DESCRIPTOR`. -/
  MAME_DELEGATE_VT_DESCRIPTOR : Bool
  /-- The value of `sizeof(single_base_equiv)`. -/
  sizeof_single_base_equiv : Nat
  /-- The value of `sizeof(unknown_base_equiv)`. -/
  sizeof_unknown_base_equiv : Nat
deriving DecidableEq, Repr

/-- Byte-addressed memory; only the low eight bits of each cell are meaningful. -/
abbrev Memory := Nat → Nat

/-- One memory access: the address of its first byte and its width in bytes. -/
structure Access where
  addr : Nat
  width : Nat
deriving DecidableEq, Repr

/-- Number of distinct addresses, `2 ^ (8 * sizeof(void *))`. -/
def Target.addr_space (t : Target) : Nat := 2 ^ (8 * t.ptr_bytes)

/-- Reduce a mathematical address to the machine address it denotes. -/
def Target.wrap (t : Target) (a : Int) : Nat := (a % (t.addr_space : Int)).toNat

/-- The value of `n` consecutive bytes starting at `a`, least significant byte first. -/
def load_le (t : Target) (mem : Memory) (a : Nat) : Nat → Nat
  | 0 => 0
  | n + 1 => mem (a % t.addr_space) % 256 + 256 * load_le t mem (a + 1) n

/-- The value of `n` consecutive bytes starting at `a`, most significant byte first;
`acc` holds the bytes consumed so far. -/
def load_be (t : Target) (mem : Memory) (a : Nat) (acc : Nat) : Nat → Nat
  | 0 => acc
  | n + 1 => load_be t mem (a + 1) (256 * acc + mem (a % t.addr_space) % 256) n

/-- The unsigned value of the `n`-byte object stored at `a`, in the target byte order. -/
def load_unsigned (t : Target) (mem : Memory) (a n : Nat) : Nat :=
  if t.big_endian then load_be t mem a 0 n else load_le t mem a n

/-- The pointer-sized value stored at `a`: `*reinterpret_cast<T *const *>(a)`. -/
def load_ptr (t : Target) (mem : Memory) (a : Nat) : Nat :=
  load_unsigned t mem a t.ptr_bytes

/-- Width in bytes of `int`, the type of the displacement fields of `delegate_mfp_msvc`. -/
def sizeof_int : Nat := 4

/-- The `int` stored at `a`: `*reinterpret_cast<int const *>(a)`, two's complement. -/
def load_int (t : Target) (mem : Memory) (a : Nat) : Int :=
  let u := load_unsigned t mem a sizeof_int
  if u < 2 ^ (8 * sizeof_int - 1) then (u : Int) else (u : Int) - 2 ^ (8 * sizeof_int)

/-- The two-word member function pointer: `uintptr_t m_function; ptrdiff_t m_this_delta`. -/
structure delegate_mfp_itanium where
  m_function : Nat
  m_this_delta : Int
deriving DecidableEq, Repr

/-- What a call of `convert_to_generic` leaves behind: the returned function pointer, the
receiver variable (passed by reference) and the memory accesses made. -/
structure generic_result where
  entry : Nat
  object : Nat
  reads : List Access
deriving DecidableEq, Repr

/-- Embedding of `delegate_mfp_itanium::convert_to_generic` (delegate.cpp, lines 83-110). -/
def delegate_mfp_itanium.convert_to_generic (t : Target) (mem : Memory)
    (self : delegate_mfp_itanium) (object : Nat) : generic_result :=
  -- apply the "this" delta to the object first
  let object := t.wrap ((object : Int)
    + (self.m_this_delta >>> (if t.MAME_DELEGATE_ITANIUM_ARM then (1 : Nat) else 0)))
  -- test the virtual member function flag
  if (if t.MAME_DELEGATE_ITANIUM_ARM then self.m_this_delta % 2 = 0
      else self.m_function % 2 = 0) then
    -- conventional function pointer
    ⟨self.m_function, object, []⟩
  else
    -- byte index into the vtable to the function
    let vtable_ptr := t.wrap ((load_ptr t mem object : Int) + (self.m_function : Int)
      - (if t.MAME_DELEGATE_ITANIUM_ARM then 0 else 1))
    if t.MAME_DELEGATE_VT_DESCRIPTOR then
      ⟨vtable_ptr, object, [⟨object, t.ptr_bytes⟩]⟩
    else
      ⟨load_ptr t mem vtable_ptr, object,
        [⟨object, t.ptr_bytes⟩, ⟨vtable_ptr, t.ptr_bytes⟩]⟩

/-- The variable-width member function pointer: `uintptr_t m_function; int m_this_delta;
int m_vptr_offs; int m_vt_index; unsigned m_size`. -/
structure delegate_mfp_msvc where
  m_function : Nat
  m_this_delta : Int
  m_vptr_offs : Int
  m_vt_index : Int
  m_size : Nat
deriving DecidableEq, Repr

/-- What a call of `adjust_this_pointer` leaves behind: the receiver variable (passed by
reference) and the memory accesses made. -/
structure adjust_result where
  object : Nat
  reads : List Access
deriving DecidableEq, Repr

/-- Embedding of `delegate_mfp_msvc::adjust_this_pointer` (delegate.cpp, lines 119-136). -/
def delegate_mfp_msvc.adjust_this_pointer (t : Target) (mem : Memory)
    (self : delegate_mfp_msvc) (object : Nat) : adjust_result :=
  let byteptr := object
  let step1 : adjust_result :=
    if t.sizeof_unknown_base_equiv = self.m_size ∧ self.m_vt_index ≠ 0 then
      let vptr_addr := t.wrap ((byteptr : Int) + self.m_vptr_offs)
      let vptr := load_ptr t mem vptr_addr
      let slot := t.wrap ((vptr : Int) + self.m_vt_index)
      ⟨t.wrap ((byteptr : Int) + load_int t mem slot),
        [⟨vptr_addr, t.ptr_bytes⟩, ⟨slot, sizeof_int⟩]⟩
    else
      ⟨byteptr, []⟩
  if t.sizeof_single_base_equiv < self.m_size then
    ⟨t.wrap ((step1.object : Int) + self.m_this_delta), step1.reads⟩
  else
    step1

/-! ## Concrete targets and memories used to exercise the embedding -/

/-- A 64-bit little-endian target with the standard (non-ARM) convention and plain
function pointers. -/
def target_x64 : Target := ⟨8, false, false, false, 8, 24⟩

/-- The same target with the ARM-like convention. -/
def target_arm64 : Target := ⟨8, false, true, false, 8, 24⟩

/-- The same target as `target_x64` with function pointers that are descriptors. -/
def target_ppc64 : Target := ⟨8, false, false, true, 8, 24⟩

/-- A memory holding one object at `0x1010` whose first word is the vtable pointer
`0x2000`, and a vtable whose slot at `0x2008` holds the code address `0x401234`. -/
def sample_memory : Memory := fun a =>
  match a with
  | 0x1011 => 0x20
  | 0x2008 => 0x34
  | 0x2009 => 0x12
  | 0x200a => 0x40
  | _ => 0

/-- A memory holding two objects of different dynamic type: the one at `0x1010` has the
vtable at `0x2000`, whose slot at offset 8 holds `0x401234`; the one at `0x1810` has the
vtable at `0x3000`, whose slot at offset 8 holds the overriding function `0x405678`. -/
def two_object_memory : Memory := fun a =>
  match a with
  | 0x1011 => 0x20
  | 0x1811 => 0x30
  | 0x2008 => 0x34
  | 0x2009 => 0x12
  | 0x200a => 0x40
  | 0x3008 => 0x78
  | 0x3009 => 0x56
  | 0x300a => 0x40
  | _ => 0

/-- A memory holding one object at `0x1000` whose word at offset `0x10` points to a
table at `0x2000`, and in that table, at offset 4, the 32-bit value `0xfffffff0`, which
is -16 as an `int`. -/
def virtual_base_memory : Memory := fun a =>
  match a with
  | 0x1011 => 0x20
  | 0x2004 => 0xf0
  | 0x2005 => 0xff
  | 0x2006 => 0xff
  | 0x2007 => 0xff
  | _ => 0

/-! ## Calls as state transformers

The decoders are `const` member functions that take the receiver by reference and read
memory through pointers to `const`.  A call is therefore a transformer of the state made
of the memory, the descriptor `*this` and the caller's receiver variable; the only
assignment in either body that is not to a local is the one to `object`. -/

/-- Everything a call of a decoder can observe or change: the memory, the descriptor the
member function is called on, and the caller's variable bound to `object`. -/
structure call_state (D : Type) where
  mem : Memory
  self : D
  object : Nat

/-- One call `self.convert_to_generic(object)`: the state it leaves and the returned
function pointer. -/
def delegate_mfp_itanium.convert_to_generic_call (t : Target)
    (s : call_state delegate_mfp_itanium) : call_state delegate_mfp_itanium × Nat :=
  (⟨s.mem, s.self, (delegate_mfp_itanium.convert_to_generic t s.mem s.self s.object).object⟩,
   (delegate_mfp_itanium.convert_to_generic t s.mem s.self s.object).entry)

/-- One call `self.adjust_this_pointer(object)`: the state it leaves. -/
def delegate_mfp_msvc.adjust_this_pointer_call (t : Target)
    (s : call_state delegate_mfp_msvc) : call_state delegate_mfp_msvc :=
  ⟨s.mem, s.self, (delegate_mfp_msvc.adjust_this_pointer t s.mem s.self s.object).object⟩

/-- The caller stores a receiver address in its variable before a call. -/
def call_state.with_object {D : Type} (s : call_state D) (r : Nat) : call_state D :=
  ⟨s.mem, s.self, r⟩

/-- Resolve the descriptor against each receiver of a list in turn, each call starting
from the state the previous one left. -/
def delegate_mfp_itanium.resolve_each (t : Target) (s : call_state delegate_mfp_itanium)
    (rs : List Nat) : call_state delegate_mfp_itanium :=
  rs.foldl (fun acc r => (delegate_mfp_itanium.convert_to_generic_call t (acc.with_object r)).1) s

/-- Adjust each receiver of a list in turn, each call starting from the state the
previous one left. -/
def delegate_mfp_msvc.adjust_each (t : Target) (s : call_state delegate_mfp_msvc)
    (rs : List Nat) : call_state delegate_mfp_msvc :=
  rs.foldl (fun acc r => delegate_mfp_msvc.adjust_this_pointer_call t (acc.with_object r)) s

/-! ## The typed delegate

The class templates that bind, rebind and invoke a delegate are declared in `delegate.h`,
which is not among the sources; they are modelled here from sections 3 and 4 of the
specification, on top of the two decoders above. -/

/-- Modelled from the spec: the `CallableSlot` of section 3, a code entry paired with a
receiver; `delegate.h`, which declares the stored pair, is missing.  A free function has
no receiver. -/
structure CallableSlot where
  entry : Nat
  receiver : Option Nat
deriving DecidableEq, Repr

/-- Modelled from the spec: the `decoder_kind` enumeration of section 3, missing with
`delegate.h`: the trivial identity of `bind_free` (section 4.5) and the decoders of
sections 4.2 and 4.3. -/
inductive decoder_kind where
  | identity
  | two_word
  | variable_width
deriving DecidableEq, Repr

/-- Modelled from the spec: the `MemberPointerDescriptor` of sections 3 and 4.1, missing
with `delegate.h`: the captured representation of a function or method pointer, kept as
the fields a decoder reads, with its size. -/
structure MemberPointerDescriptor where
  m_function : Nat
  m_this_delta : Int
  m_vptr_offs : Int
  m_vt_index : Int
  m_size : Nat
deriving DecidableEq, Repr

/-- Modelled from the spec: a method-pointer value handed to `bind` (section 4.1), in
one of the two compiler conventions; the capturing templates of `delegate.h` are
missing. -/
inductive member_pointer where
  | two_word (mfp : delegate_mfp_itanium)
  | variable_width (mfp : delegate_mfp_msvc)
deriving DecidableEq, Repr

/-- Modelled from the spec: descriptor capture (section 4.1), missing with `delegate.h`:
the representation is copied as it is and the decoder that reads it is recorded; nothing
is interpreted and the step cannot fail. -/
def MemberPointerDescriptor.capture (t : Target) :
    member_pointer → MemberPointerDescriptor × decoder_kind
  | .two_word mfp => (⟨mfp.m_function, mfp.m_this_delta, 0, 0, 2 * t.ptr_bytes⟩, .two_word)
  | .variable_width mfp =>
    (⟨mfp.m_function, mfp.m_this_delta, mfp.m_vptr_offs, mfp.m_vt_index, mfp.m_size⟩,
     .variable_width)

/-- Modelled from the spec: the `LateBindingDescriptor` of section 3, missing with
`delegate.h`: a descriptor, the decoder selected for it and the declared interface. -/
structure LateBindingDescriptor where
  descriptor : MemberPointerDescriptor
  decoder_kind : decoder_kind
  declared_signature : std.type_info
deriving DecidableEq, Repr

/-- Modelled from the spec: `resolve` of section 4.4, missing with `delegate.h`: select
the decoder by `decoder_kind` and call it.  The identity decoder returns the function
address with no receiver; the other two are the decoders of `delegate.cpp`. -/
def LateBindingDescriptor.resolve (t : Target) (mem : Memory) (b : LateBindingDescriptor)
    (receiver : Nat) : CallableSlot :=
  match b.decoder_kind with
  | .identity => ⟨b.descriptor.m_function, none⟩
  | .two_word =>
    ⟨(delegate_mfp_itanium.convert_to_generic t mem
        ⟨b.descriptor.m_function, b.descriptor.m_this_delta⟩ receiver).entry,
     some (delegate_mfp_itanium.convert_to_generic t mem
        ⟨b.descriptor.m_function, b.descriptor.m_this_delta⟩ receiver).object⟩
  | .variable_width =>
    ⟨b.descriptor.m_function,
     some (delegate_mfp_msvc.adjust_this_pointer t mem
        ⟨b.descriptor.m_function, b.descriptor.m_this_delta, b.descriptor.m_vptr_offs,
         b.descriptor.m_vt_index, b.descriptor.m_size⟩ receiver).object⟩

/-- Modelled from the spec: the `TypedDelegate` of section 3, missing with `delegate.h`. -/
structure TypedDelegate where
  binding : LateBindingDescriptor
  bound_receiver : Option Nat
  resolved : CallableSlot
  is_bound : Bool
deriving DecidableEq, Repr

/-- Modelled from the spec: a receiver handed to `bind` (section 4.5), its address and
its static type; the receiver classes are missing with the rest of the host. -/
structure Receiver where
  address : Nat
  static_type : std.type_info
deriving DecidableEq, Repr

/-- Modelled from the spec: the conditions of sections 6 and 7 under which an operation
of the delegate fails, missing with `delegate.h`; the type mismatch carries the
exception object of `delegate.cpp`. -/
inductive delegate_error where
  | binding_type_mismatch (e : binding_type_exception)
  | not_rebindable
  | invoked_unbound
deriving DecidableEq, Repr

/-- Modelled from the spec: a delegate as created (section 3), declared against an
interface, empty and unbound; the constructors of `delegate.h` are missing. -/
def TypedDelegate.empty (interface : std.type_info) : TypedDelegate :=
  ⟨⟨⟨0, 0, 0, 0, 0⟩, .identity, interface⟩, none, ⟨0, none⟩, false⟩

/-- Modelled from the spec: the type check of `bind` (section 4.5), whose implementation
in `delegate.h` is missing: the receiver's type is the declared interface or derived
from it, `derived_from` being the class hierarchy of the host. -/
def type_reachable (derived_from : std.type_info → std.type_info → Bool)
    (actual interface : std.type_info) : Bool :=
  decide (actual = interface) || derived_from actual interface

/-- Modelled from the spec: `bind_free` of section 4.5, missing with `delegate.h`: store
a descriptor whose decoder is the identity, entry the function address, no receiver,
bound. -/
def TypedDelegate.bind_free (d : TypedDelegate) (function : Nat) :
    TypedDelegate × Option delegate_error :=
  (⟨⟨⟨function, 0, 0, 0, 0⟩, .identity, d.binding.declared_signature⟩, none,
    ⟨function, none⟩, true⟩, none)

/-- Modelled from the spec: `bind` of section 4.5, missing with `delegate.h`: check the
receiver's type against the declared interface; on mismatch fail with the binding error
and keep the previous state; otherwise capture the descriptor, resolve at once and cache
the slot. -/
def TypedDelegate.bind (t : Target) (mem : Memory)
    (derived_from : std.type_info → std.type_info → Bool) (d : TypedDelegate)
    (receiver : Receiver) (mp : member_pointer) : TypedDelegate × Option delegate_error :=
  if type_reachable derived_from receiver.static_type d.binding.declared_signature then
    let b : LateBindingDescriptor :=
      ⟨(MemberPointerDescriptor.capture t mp).1, (MemberPointerDescriptor.capture t mp).2,
       d.binding.declared_signature⟩
    (⟨b, some receiver.address, b.resolve t mem receiver.address, true⟩, none)
  else
    (d, some (.binding_type_mismatch
      (binding_type_exception.binding_type_exception d.binding.declared_signature
        receiver.static_type)))

/-- Modelled from the spec: `rebind` of section 4.5, missing with `delegate.h`: on a
delegate bound through a member pointer, resolve the stored binding against the new
receiver; on an unbound or free-function-bound delegate fail as not rebindable. -/
def TypedDelegate.rebind (t : Target) (mem : Memory) (d : TypedDelegate)
    (new_receiver : Nat) : TypedDelegate × Option delegate_error :=
  if d.is_bound = true ∧ d.binding.decoder_kind ≠ .identity then
    (⟨d.binding, some new_receiver, d.binding.resolve t mem new_receiver, true⟩, none)
  else
    (d, some .not_rebindable)

/-- Modelled from the spec: `invoke` of section 4.5, missing with `delegate.h`: fail when
unbound, otherwise jump through the cached slot and return the result unmodified; `jump`
is the host's call through a slot. -/
def TypedDelegate.invoke {A R : Type} (jump : CallableSlot → A → R) (d : TypedDelegate)
    (args : A) : Except delegate_error R :=
  if d.is_bound then .ok (jump d.resolved args) else .error .invoked_unbound

/-- Modelled from the spec: the operations of section 6 that change a delegate. -/
inductive delegate_op where
  | bind_free (function : Nat)
  | bind (receiver : Receiver) (mp : member_pointer)
  | rebind (new_receiver : Nat)
deriving DecidableEq, Repr

/-- Modelled from the spec: carry out one operation of section 6 on a delegate. -/
def TypedDelegate.apply (t : Target) (mem : Memory)
    (derived_from : std.type_info → std.type_info → Bool) (d : TypedDelegate) :
    delegate_op → TypedDelegate × Option delegate_error
  | .bind_free function => d.bind_free function
  | .bind receiver mp => d.bind t mem derived_from receiver mp
  | .rebind new_receiver => d.rebind t mem new_receiver

/-- Modelled from the spec: carry out a sequence of operations, each on the state the
previous one left, whether it failed or not. -/
def TypedDelegate.run (t : Target) (mem : Memory)
    (derived_from : std.type_info → std.type_info → Bool) (d : TypedDelegate) :
    List delegate_op → TypedDelegate
  | [] => d
  | op :: ops => TypedDelegate.run t mem derived_from (d.apply t mem derived_from op).1 ops

/-- Two unrelated types and a class hierarchy in which `Derived` derives from `Base`. -/
def type_Base : std.type_info := ⟨1, "Base"⟩

/-- A class derived from `type_Base`. -/
def type_Derived : std.type_info := ⟨2, "Derived"⟩

/-- A class unrelated to `type_Base`. -/
def type_Other : std.type_info := ⟨3, "Other"⟩

/-- The hierarchy of the three sample types: only `Derived` derives from `Base`. -/
def sample_hierarchy : std.type_info → std.type_info → Bool :=
  fun actual interface => decide (actual = type_Derived ∧ interface = type_Base)

end util.detail

/-! ## The GMS driver handlers (src/mame/misc/gms.cpp)

The handlers of `gms_2layers_state` and `gms_3layers_state` that read and write the
driver's own registers.  The devices they talk to (DIP-switch ports, serial EEPROM,
YM2151) belong to the emulator core; a handler's calls to them are recorded in program
order, and the values the devices hand back are part of the state. -/

/-- The two levels the driver passes to a signal line, `CLEAR_LINE` and `ASSERT_LINE`. -/
inductive line_state where
  | CLEAR_LINE
  | ASSERT_LINE
deriving DecidableEq, Repr

/-- A call from a handler to a device or to `printf`, with its arguments. -/
inductive device_call where
  | eeprom_di_write (state : Nat)
  | eeprom_cs_write (state : line_state)
  | eeprom_clk_write (state : line_state)
  | ymsnd_read (offset : Nat)
  | ymsnd_write (offset : Nat) (data : Nat)
  | printf_mux_data_R (mux_data : Nat)
  | printf_mux_data_W (mux_data : Nat)
deriving DecidableEq, Repr

/-- The arguments a tile callback hands to `tileinfo.set`. -/
structure tile_data where
  gfxnum : Nat
  code : Nat
  color : Nat
  flags : Nat
deriving DecidableEq, Repr

/-- The data members of `gms_2layers_state` that the handlers use.  `m_vidram which
offset` is a word of video RAM; `m_dsw i` is the value port `i` currently reads, when
the port exists; `m_ymsnd` is the value the YM2151 returns at a register offset, when the
chip exists; `calls` holds the device calls made so far, oldest first. -/
structure gms_2layers_state where
  m_vidram : Nat → Nat → Nat
  m_dsw : Nat → Option Nat
  m_ymsnd : Option (Nat → Nat)
  m_tilebank : Nat
  m_mux_data : Nat
  m_input_matrix : Nat
  calls : List device_call

/-- The class `gms_3layers_state` derives from `gms_2layers_state` and adds no data
member. -/
abbrev gms_3layers_state := gms_2layers_state

/-- Record one more device call. -/
def gms_2layers_state.log (s : gms_2layers_state) (c : device_call) : gms_2layers_state :=
  ⟨s.m_vidram, s.m_dsw, s.m_ymsnd, s.m_tilebank, s.m_mux_data, s.m_input_matrix,
   s.calls ++ [c]⟩

/-- Modelled from the spec: `read_safe` of an optional port is declared in the emulator
core, which is missing; as its name and its use in `input_matrix_r` say, it is the value
the port reads when the port exists and the default handed in when it is absent. -/
def read_safe (port : Option Nat) (defval : Nat) : Nat :=
  port.getD defval

/-- Embedding of `gms_2layers_state::input_matrix_r` (gms.cpp, lines 180-191).  The
result is a `uint16_t`; bank 0 is read through the port pointer, which fails when the
port is absent. -/
def gms_2layers_state.input_matrix_r (s : gms_2layers_state) : Option Nat := do
  let res := 0xffff
  let res ← if s.m_input_matrix &&& 0x1000 ≠ 0 then
      (s.m_dsw 0).map (fun v => (res &&& v) % 0x10000)
    else pure res
  let res := if s.m_input_matrix &&& 0x2000 ≠ 0 then
      (res &&& read_safe (s.m_dsw 1) 0xffff) % 0x10000
    else res
  let res := if s.m_input_matrix &&& 0x4000 ≠ 0 then
      (res &&& read_safe (s.m_dsw 2) 0xffff) % 0x10000
    else res
  let res := if s.m_input_matrix &&& 0x8000 ≠ 0 then
      (res &&& read_safe (s.m_dsw 3) 0xffff) % 0x10000
    else res
  return res

/-- The value the handler is described to return: starting from `acc`, the AND with each
bank of the list whose select bit is set, the first bank being selected by bit `bit` of
`select`, the next by bit `bit + 1`, and so on. -/
def selected_banks_and (select : Nat) : Nat → Nat → List Nat → Nat
  | _, acc, [] => acc
  | bit, acc, v :: vs =>
    selected_banks_and select (bit + 1) (if select.testBit bit then acc &&& v else acc) vs

/-- Embedding of `gms_2layers_state::tilebank_w` (gms.cpp, lines 193-196). -/
def gms_2layers_state.tilebank_w (s : gms_2layers_state) (data : Nat) : gms_2layers_state :=
  ⟨s.m_vidram, s.m_dsw, s.m_ymsnd, data, s.m_mux_data, s.m_input_matrix, s.calls⟩

/-- Embedding of `gms_2layers_state::input_matrix_w` (gms.cpp, lines 205-208). -/
def gms_2layers_state.input_matrix_w (s : gms_2layers_state) (data : Nat) :
    gms_2layers_state :=
  ⟨s.m_vidram, s.m_dsw, s.m_ymsnd, s.m_tilebank, s.m_mux_data, data, s.calls⟩

/-- Embedding of `gms_2layers_state::eeprom_w` (gms.cpp, lines 210-220).  The macro
`ACCESSING_BITS_0_7`, defined in the emulator core, is a test on `mem_mask` and is taken
as a parameter. -/
def gms_2layers_state.eeprom_w (ACCESSING_BITS_0_7 : Nat → Bool) (s : gms_2layers_state)
    (offset data mem_mask : Nat) : gms_2layers_state :=
  let _ := offset
  if ACCESSING_BITS_0_7 mem_mask then
    ((s.log (.eeprom_di_write ((data &&& 0x04) >>> 2))).log
      (.eeprom_cs_write (if data &&& 0x01 ≠ 0 then .ASSERT_LINE else .CLEAR_LINE))).log
      (.eeprom_clk_write (if data &&& 0x02 ≠ 0 then .ASSERT_LINE else .CLEAR_LINE))
  else
    s

/-- Embedding of `gms_2layers_state::mcu_io_r` (gms.cpp, lines 294-310): the value
returned and the state left; the call fails when the YM2151 is addressed but absent. -/
def gms_2layers_state.mcu_io_r (s : gms_2layers_state) (offset : Nat) :
    Option (Nat × gms_2layers_state) :=
  if s.m_mux_data &&& 8 ≠ 0 then
    match s.m_ymsnd with
    | some ym => some (ym (offset &&& 1), s.log (.ymsnd_read (offset &&& 1)))
    | none => none
  else if s.m_mux_data &&& 4 ≠ 0 then
    some (0xff, s)
  else
    some (0xff, s.log (.printf_mux_data_R s.m_mux_data))

/-- Embedding of `gms_2layers_state::mcu_io_w` (gms.cpp, lines 312-322): the state left;
the call fails when the YM2151 is addressed but absent. -/
def gms_2layers_state.mcu_io_w (s : gms_2layers_state) (offset data : Nat) :
    Option gms_2layers_state :=
  if s.m_mux_data &&& 8 ≠ 0 then
    match s.m_ymsnd with
    | some _ => some (s.log (.ymsnd_write (offset &&& 1) data))
    | none => none
  else if s.m_mux_data &&& 4 ≠ 0 then
    some s
  else
    some (s.log (.printf_mux_data_W s.m_mux_data))

/-- Embedding of `gms_2layers_state::mcu_io_mux_w` (gms.cpp, lines 324-327): `~data` is
computed on `int` and stored in the `uint8_t` member. -/
def gms_2layers_state.mcu_io_mux_w (s : gms_2layers_state) (data : Nat) : gms_2layers_state :=
  ⟨s.m_vidram, s.m_dsw, s.m_ymsnd, s.m_tilebank, ((-(data : Int) - 1) % 256).toNat,
   s.m_input_matrix, s.calls⟩

/-- Embedding of `gms_2layers_state::get_tile0_info` (gms.cpp, lines 1203-1207). -/
def gms_2layers_state.get_tile0_info (s : gms_2layers_state) (tile_index : Nat) : tile_data :=
  let tile := s.m_vidram 0 tile_index
  ⟨0, (tile &&& 0x0fff) + ((s.m_tilebank &&& 0x10) >>> 4) * 0x1000, tile >>> 12, 0⟩

/-- Embedding of `gms_2layers_state::get_tile1_info` (gms.cpp, lines 1209-1213). -/
def gms_2layers_state.get_tile1_info (s : gms_2layers_state) (tile_index : Nat) : tile_data :=
  let tile := s.m_vidram 1 tile_index
  ⟨1, (tile &&& 0x0fff) + ((s.m_tilebank >>> 1) &&& 3) * 0x1000, tile >>> 12, 0⟩

/-- Embedding of `gms_3layers_state::get_tile2_info` (gms.cpp, lines 1215-1219). -/
def gms_3layers_state.get_tile2_info (s : gms_3layers_state) (tile_index : Nat) : tile_data :=
  let tile := s.m_vidram 2 tile_index
  ⟨2, (tile &&& 0x0fff) + ((s.m_tilebank >>> 9) &&& 3) * 0x1000, tile >>> 12, 0⟩

/-- A driver state for examples: all video RAM words are `0xa123`, the first three DIP
banks exist and read `0xff0f`, `0xf0ff` and `0x0fff`, the fourth is absent, and the
YM2151 returns `0x80` plus the register offset. -/
def sample_gms_state : gms_2layers_state :=
  ⟨fun _ _ => 0xa123,
   fun i => match i with
     | 0 => some 0xff0f
     | 1 => some 0xf0ff
     | 2 => some 0x0fff
     | _ => none,
   some (fun offset => 0x80 + offset), 0, 0, 0, []⟩

namespace util.detail

/-! ## Address arithmetic -/

theorem Target.addr_space_pos (t : Target) : 0 < t.addr_space := by
  unfold Target.addr_space
  positivity

theorem Target.wrap_lt (t : Target) (a : Int) : t.wrap a < t.addr_space := by
  have hpos : (0 : Int) < (t.addr_space : Int) := by exact_mod_cast t.addr_space_pos
  have h1 := Int.emod_nonneg a (ne_of_gt hpos)
  have h2 := Int.emod_lt_of_pos a hpos
  unfold Target.wrap
  omega

theorem Target.wrap_cast (t : Target) (a : Int) :
    ((t.wrap a : Nat) : Int) = a % (t.addr_space : Int) := by
  have hpos : (0 : Int) < (t.addr_space : Int) := by exact_mod_cast t.addr_space_pos
  have h1 := Int.emod_nonneg a (ne_of_gt hpos)
  unfold Target.wrap
  omega

/-- Shifting a signed value right by no bits leaves it unchanged. -/
theorem int_shiftRight_zero (d : Int) : d >>> (0 : Nat) = d := by
  cases d <;> rfl

/-- Shifting a signed value right by one bit is division by two rounded towards minus
infinity. -/
theorem int_shiftRight_one (d : Int) : d >>> (1 : Nat) = d / 2 := by
  rw [Int.shiftRight_eq_div_pow]
  rfl

/-! ## The two-word convention: `delegate_mfp_itanium::convert_to_generic` -/

/-- The displacement actually added to the receiver: the field itself, or the field
shifted right by one bit in the ARM-like variant. -/
theorem convert_to_generic_object (t : Target) (mem : Memory) (self : delegate_mfp_itanium)
    (r : Nat) :
    (delegate_mfp_itanium.convert_to_generic t mem self r).object
      = t.wrap ((r : Int)
          + (self.m_this_delta >>> (if t.MAME_DELEGATE_ITANIUM_ARM then (1 : Nat) else 0))) := by
  unfold delegate_mfp_itanium.convert_to_generic
  split_ifs <;> rfl

/-- The branch taken when the tested bit is clear. -/
theorem convert_to_generic_conventional (t : Target) (mem : Memory)
    (self : delegate_mfp_itanium) (r : Nat)
    (h : if t.MAME_DELEGATE_ITANIUM_ARM then self.m_this_delta % 2 = 0
      else self.m_function % 2 = 0) :
    delegate_mfp_itanium.convert_to_generic t mem self r
      = ⟨self.m_function,
         t.wrap ((r : Int)
          + (self.m_this_delta >>> (if t.MAME_DELEGATE_ITANIUM_ARM then (1 : Nat) else 0))), []⟩ := by
  unfold delegate_mfp_itanium.convert_to_generic
  rw [if_pos h]

/-- The branch taken when the tested bit is set, on a target with plain function
pointers. -/
theorem convert_to_generic_vtable (t : Target) (mem : Memory)
    (self : delegate_mfp_itanium) (r : Nat)
    (h : ¬ (if t.MAME_DELEGATE_ITANIUM_ARM then self.m_this_delta % 2 = 0
      else self.m_function % 2 = 0))
    (hvt : t.MAME_DELEGATE_VT_DESCRIPTOR = false) :
    delegate_mfp_itanium.convert_to_generic t mem self r
      = ⟨load_ptr t mem (t.wrap ((load_ptr t mem (t.wrap ((r : Int)
            + (self.m_this_delta >>> (if t.MAME_DELEGATE_ITANIUM_ARM then (1 : Nat) else 0)))) : Int)
            + (self.m_function : Int) - (if t.MAME_DELEGATE_ITANIUM_ARM then 0 else 1))),
         t.wrap ((r : Int)
            + (self.m_this_delta >>> (if t.MAME_DELEGATE_ITANIUM_ARM then (1 : Nat) else 0))),
         [⟨t.wrap ((r : Int)
            + (self.m_this_delta >>> (if t.MAME_DELEGATE_ITANIUM_ARM then (1 : Nat) else 0))),
            t.ptr_bytes⟩,
          ⟨t.wrap ((load_ptr t mem (t.wrap ((r : Int)
            + (self.m_this_delta >>> (if t.MAME_DELEGATE_ITANIUM_ARM then (1 : Nat) else 0)))) : Int)
            + (self.m_function : Int) - (if t.MAME_DELEGATE_ITANIUM_ARM then 0 else 1)),
            t.ptr_bytes⟩]⟩ := by
  unfold delegate_mfp_itanium.convert_to_generic
  rw [if_neg h]
  simp [hvt]

/-- The branch taken when the tested bit is set, on a target whose function pointers
are descriptors. -/
theorem convert_to_generic_vtable_descriptor (t : Target) (mem : Memory)
    (self : delegate_mfp_itanium) (r : Nat)
    (h : ¬ (if t.MAME_DELEGATE_ITANIUM_ARM then self.m_this_delta % 2 = 0
      else self.m_function % 2 = 0))
    (hvt : t.MAME_DELEGATE_VT_DESCRIPTOR = true) :
    delegate_mfp_itanium.convert_to_generic t mem self r
      = ⟨t.wrap ((load_ptr t mem (t.wrap ((r : Int)
            + (self.m_this_delta >>> (if t.MAME_DELEGATE_ITANIUM_ARM then (1 : Nat) else 0)))) : Int)
            + (self.m_function : Int) - (if t.MAME_DELEGATE_ITANIUM_ARM then 0 else 1)),
         t.wrap ((r : Int)
            + (self.m_this_delta >>> (if t.MAME_DELEGATE_ITANIUM_ARM then (1 : Nat) else 0))),
         [⟨t.wrap ((r : Int)
            + (self.m_this_delta >>> (if t.MAME_DELEGATE_ITANIUM_ARM then (1 : Nat) else 0))),
            t.ptr_bytes⟩]⟩ := by
  unfold delegate_mfp_itanium.convert_to_generic
  rw [if_neg h]
  simp [hvt]

/-- C1: in the standard (non-ARM) convention the receiver left behind by
`convert_to_generic` is `r + d` reduced modulo the size of the address space, for every
code-address field (tagged or not), every signed displacement, every receiver and every
memory. -/
theorem convert_to_generic_receiver_standard (t : Target) (mem : Memory) (f : Nat) (d : Int)
    (r : Nat) (harm : t.MAME_DELEGATE_ITANIUM_ARM = false) :
    (delegate_mfp_itanium.convert_to_generic t mem ⟨f, d⟩ r).object = t.wrap ((r : Int) + d)
    ∧ ((delegate_mfp_itanium.convert_to_generic t mem ⟨f, d⟩ r).object : Int)
        = ((r : Int) + d) % ((2 ^ (8 * t.ptr_bytes) : Nat) : Int) := by
  have h := convert_to_generic_object t mem ⟨f, d⟩ r
  simp only [harm, Bool.false_eq_true, if_false, int_shiftRight_zero] at h
  refine ⟨h, ?_⟩
  rw [h, Target.wrap_cast]
  rfl

/-- C1 at concrete inputs: a virtual descriptor with displacement 16 and a non-virtual
one with displacement -16, which wraps below address zero. -/
theorem convert_to_generic_receiver_standard_witness :
    target_x64.MAME_DELEGATE_ITANIUM_ARM = false
    ∧ (delegate_mfp_itanium.convert_to_generic target_x64 sample_memory ⟨9, 16⟩ 0x1000).object
        = 0x1010
    ∧ (delegate_mfp_itanium.convert_to_generic target_x64 sample_memory ⟨0x400000, -16⟩ 8).object
        = 0xfffffffffffffff8 :=
  ⟨rfl,
   (convert_to_generic_receiver_standard target_x64 sample_memory 9 16 0x1000 rfl).1.trans
     (by decide),
   (convert_to_generic_receiver_standard target_x64 sample_memory 0x400000 (-16) 8 rfl).1.trans
     (by decide)⟩

/-- C2: in the standard convention a code-address field with bit 0 clear is returned
unchanged as the entry point and no memory is read, for every receiver, displacement and
memory. -/
theorem convert_to_generic_nonvirtual_standard (t : Target) (mem : Memory) (f : Nat) (d : Int)
    (r : Nat) (harm : t.MAME_DELEGATE_ITANIUM_ARM = false) (hbit : f % 2 = 0) :
    (delegate_mfp_itanium.convert_to_generic t mem ⟨f, d⟩ r).entry = f
    ∧ (delegate_mfp_itanium.convert_to_generic t mem ⟨f, d⟩ r).reads = [] := by
  have h := convert_to_generic_conventional t mem ⟨f, d⟩ r (by simp [harm, hbit])
  rw [h]
  exact ⟨rfl, rfl⟩

/-- C2 at a concrete input: the even field `0x400000` comes back as the entry. -/
theorem convert_to_generic_nonvirtual_standard_witness :
    target_x64.MAME_DELEGATE_ITANIUM_ARM = false ∧ 0x400000 % 2 = 0
    ∧ (delegate_mfp_itanium.convert_to_generic target_x64 sample_memory
        ⟨0x400000, -16⟩ 8).entry = 0x400000
    ∧ (delegate_mfp_itanium.convert_to_generic target_x64 sample_memory
        ⟨0x400000, -16⟩ 8).reads = [] :=
  ⟨rfl, by decide,
   convert_to_generic_nonvirtual_standard target_x64 sample_memory 0x400000 (-16) 8 rfl
     (by decide)⟩

/-- C3: in the standard convention without function descriptors, a code-address field
with bit 0 set makes the entry the pointer-sized value stored at `V + f - 1`, where `V`
is the pointer-sized value stored at the adjusted receiver `r + d`; these two locations
are exactly the ones read. -/
theorem convert_to_generic_virtual_standard (t : Target) (mem : Memory) (f : Nat) (d : Int)
    (r : Nat) (harm : t.MAME_DELEGATE_ITANIUM_ARM = false)
    (hvt : t.MAME_DELEGATE_VT_DESCRIPTOR = false) (hbit : f % 2 = 1) :
    (delegate_mfp_itanium.convert_to_generic t mem ⟨f, d⟩ r).entry
      = load_ptr t mem
          (t.wrap ((load_ptr t mem (t.wrap ((r : Int) + d)) : Int) + (f : Int) - 1))
    ∧ (delegate_mfp_itanium.convert_to_generic t mem ⟨f, d⟩ r).reads
      = [⟨t.wrap ((r : Int) + d), t.ptr_bytes⟩,
         ⟨t.wrap ((load_ptr t mem (t.wrap ((r : Int) + d)) : Int) + (f : Int) - 1),
          t.ptr_bytes⟩] := by
  have h := convert_to_generic_vtable t mem ⟨f, d⟩ r (by simp [harm, hbit]) hvt
  simp only [harm, Bool.false_eq_true, if_false, int_shiftRight_zero] at h
  rw [h]
  exact ⟨rfl, rfl⟩

/-- C3 at a concrete input: receiver `0x1000`, displacement 16 and field 9 read the
vtable pointer `0x2000` at `0x1010` (the word at `0x1000` itself is zero) and return the
word stored at `0x2008`. -/
theorem convert_to_generic_virtual_standard_witness :
    target_x64.MAME_DELEGATE_ITANIUM_ARM = false
    ∧ target_x64.MAME_DELEGATE_VT_DESCRIPTOR = false ∧ 9 % 2 = 1
    ∧ load_ptr target_x64 sample_memory 0x1000 = 0
    ∧ load_ptr target_x64 sample_memory 0x1010 = 0x2000
    ∧ (delegate_mfp_itanium.convert_to_generic target_x64 sample_memory ⟨9, 16⟩ 0x1000).entry
        = 0x401234 :=
  ⟨rfl, rfl, by decide, by decide, by decide,
   (convert_to_generic_virtual_standard target_x64 sample_memory 9 16 0x1000 rfl rfl
     (by decide)).1.trans (by decide)⟩

/-- C4, as stated, fails: on a 64-bit target the field 9 resolved against the vtable at
`0x2000` reads the slot at `0x2008`, one byte (not one eight-byte word) below
`0x2000 + 9`; the word one pointer-sized unit below, at `0x2001`, is neither read nor
returned. -/
theorem convert_to_generic_slot_counterexample :
    target_x64.MAME_DELEGATE_ITANIUM_ARM = false ∧ 9 % 2 = 1
    ∧ load_ptr target_x64 sample_memory 0x1010 = 0x2000
    ∧ target_x64.wrap ((0x2000 : Int) + 9 - (target_x64.ptr_bytes : Int)) = 0x2001
    ∧ (delegate_mfp_itanium.convert_to_generic target_x64 sample_memory ⟨9, 16⟩ 0x1000).reads
        = [⟨0x1010, 8⟩, ⟨0x2008, 8⟩]
    ∧ (delegate_mfp_itanium.convert_to_generic target_x64 sample_memory ⟨9, 16⟩ 0x1000).reads
        ≠ [⟨0x1010, 8⟩, ⟨0x2001, 8⟩]
    ∧ (delegate_mfp_itanium.convert_to_generic target_x64 sample_memory ⟨9, 16⟩ 0x1000).entry
        ≠ load_ptr target_x64 sample_memory 0x2001 := by
  decide

/-- C4, amended: in the virtual case of the standard convention the vtable slot lies at
the receiver's vtable pointer plus the stored field minus one (the tag bit, a single
byte of address, not a pointer-sized word); on a target with plain function pointers
that slot is the second and last location read, and on a target whose function pointers
are descriptors its address is returned without being read. -/
theorem convert_to_generic_slot_standard (t : Target) (mem : Memory) (f : Nat) (d : Int)
    (r : Nat) (harm : t.MAME_DELEGATE_ITANIUM_ARM = false) (hbit : f % 2 = 1) :
    (t.MAME_DELEGATE_VT_DESCRIPTOR = false →
      (delegate_mfp_itanium.convert_to_generic t mem ⟨f, d⟩ r).reads
        = [⟨t.wrap ((r : Int) + d), t.ptr_bytes⟩,
           ⟨t.wrap ((load_ptr t mem (t.wrap ((r : Int) + d)) : Int) + (f : Int) - 1),
            t.ptr_bytes⟩])
    ∧ (t.MAME_DELEGATE_VT_DESCRIPTOR = true →
      (delegate_mfp_itanium.convert_to_generic t mem ⟨f, d⟩ r).entry
        = t.wrap ((load_ptr t mem (t.wrap ((r : Int) + d)) : Int) + (f : Int) - 1)
      ∧ (delegate_mfp_itanium.convert_to_generic t mem ⟨f, d⟩ r).reads
        = [⟨t.wrap ((r : Int) + d), t.ptr_bytes⟩]) := by
  constructor
  · intro hvt
    have h := convert_to_generic_vtable t mem ⟨f, d⟩ r (by simp [harm, hbit]) hvt
    simp only [harm, Bool.false_eq_true, if_false, int_shiftRight_zero] at h
    rw [h]
  · intro hvt
    have h := convert_to_generic_vtable_descriptor t mem ⟨f, d⟩ r (by simp [harm, hbit]) hvt
    simp only [harm, Bool.false_eq_true, if_false, int_shiftRight_zero] at h
    rw [h]
    exact ⟨rfl, rfl⟩

/-- C4, amended, at concrete inputs: the slot of field 9 in the vtable at `0x2000` is
`0x2008` on both kinds of target. -/
theorem convert_to_generic_slot_standard_witness :
    target_x64.MAME_DELEGATE_ITANIUM_ARM = false ∧ 9 % 2 = 1
    ∧ (delegate_mfp_itanium.convert_to_generic target_x64 sample_memory ⟨9, 16⟩ 0x1000).reads
        = [⟨0x1010, 8⟩, ⟨0x2008, 8⟩]
    ∧ (delegate_mfp_itanium.convert_to_generic target_ppc64 sample_memory ⟨9, 16⟩ 0x1000).entry
        = 0x2008 :=
  ⟨rfl, by decide,
   ((convert_to_generic_slot_standard target_x64 sample_memory 9 16 0x1000 rfl
      (by decide)).1 rfl).trans (by decide),
   ((convert_to_generic_slot_standard target_ppc64 sample_memory 9 16 0x1000 rfl
      (by decide)).2 rfl).1.trans (by decide)⟩

/-- The entry in the branch taken when the tested bit is set, in terms of the receiver
the call leaves behind. -/
theorem convert_to_generic_entry_vtable (t : Target) (mem : Memory)
    (self : delegate_mfp_itanium) (r : Nat)
    (h : ¬ (if t.MAME_DELEGATE_ITANIUM_ARM then self.m_this_delta % 2 = 0
      else self.m_function % 2 = 0)) :
    (delegate_mfp_itanium.convert_to_generic t mem self r).entry
      = if t.MAME_DELEGATE_VT_DESCRIPTOR then
          t.wrap ((load_ptr t mem
              (delegate_mfp_itanium.convert_to_generic t mem self r).object : Int)
            + (self.m_function : Int) - (if t.MAME_DELEGATE_ITANIUM_ARM then 0 else 1))
        else
          load_ptr t mem (t.wrap ((load_ptr t mem
              (delegate_mfp_itanium.convert_to_generic t mem self r).object : Int)
            + (self.m_function : Int) - (if t.MAME_DELEGATE_ITANIUM_ARM then 0 else 1))) := by
  unfold delegate_mfp_itanium.convert_to_generic
  rw [if_neg h]
  split_ifs <;> rfl

/-- The tested bit being set, stated positively, refutes the test for the conventional
branch. -/
theorem tag_set_not_clear (t : Target) (self : delegate_mfp_itanium)
    (htag : if t.MAME_DELEGATE_ITANIUM_ARM then self.m_this_delta % 2 = 1
      else self.m_function % 2 = 1) :
    ¬ (if t.MAME_DELEGATE_ITANIUM_ARM then self.m_this_delta % 2 = 0
      else self.m_function % 2 = 0) := by
  cases harm : t.MAME_DELEGATE_ITANIUM_ARM <;> simp [harm] at htag ⊢ <;> omega

/-- C5, as stated, fails on a target whose function pointers are descriptors: the two
receivers have vtables `0x2000` and `0x3000` whose slots at offset 8 hold `0x401234` and
`0x405678`, yet the same descriptor resolves to the slot addresses `0x2008` and `0x3008`,
not to the contents of those slots. -/
theorem convert_to_generic_override_counterexample :
    9 % 2 = 1
    ∧ load_ptr target_ppc64 two_object_memory
        (delegate_mfp_itanium.convert_to_generic target_ppc64 two_object_memory
          ⟨9, 16⟩ 0x1000).object = 0x2000
    ∧ load_ptr target_ppc64 two_object_memory
        (delegate_mfp_itanium.convert_to_generic target_ppc64 two_object_memory
          ⟨9, 16⟩ 0x1800).object = 0x3000
    ∧ load_ptr target_ppc64 two_object_memory (0x2000 + 8) = 0x401234
    ∧ load_ptr target_ppc64 two_object_memory (0x3000 + 8) = 0x405678
    ∧ (delegate_mfp_itanium.convert_to_generic target_ppc64 two_object_memory
        ⟨9, 16⟩ 0x1000).entry = 0x2008
    ∧ (delegate_mfp_itanium.convert_to_generic target_ppc64 two_object_memory
        ⟨9, 16⟩ 0x1800).entry = 0x3008
    ∧ (delegate_mfp_itanium.convert_to_generic target_ppc64 two_object_memory
        ⟨9, 16⟩ 0x1000).entry ≠ load_ptr target_ppc64 two_object_memory (0x2000 + 8)
    ∧ (delegate_mfp_itanium.convert_to_generic target_ppc64 two_object_memory
        ⟨9, 16⟩ 0x1800).entry ≠ load_ptr target_ppc64 two_object_memory (0x3000 + 8) := by
  decide

/-- C5, amended: for a descriptor whose tag bit is set and two receivers whose adjusted
first words are the vtable pointers `V1` and `V2`, the entries are taken from the
receivers' own vtables at one common offset (the code-address field, less the tag in the
standard convention): on a target with plain function pointers they are the contents of
the slots `V1 + offset` and `V2 + offset`, and on a target whose function pointers are
descriptors they are the addresses `V1 + offset` and `V2 + offset` of those slots. -/
theorem convert_to_generic_override (t : Target) (mem : Memory) (f : Nat) (d : Int)
    (r1 r2 V1 V2 : Nat)
    (htag : if t.MAME_DELEGATE_ITANIUM_ARM then d % 2 = 1 else f % 2 = 1)
    (h1 : load_ptr t mem (delegate_mfp_itanium.convert_to_generic t mem ⟨f, d⟩ r1).object = V1)
    (h2 : load_ptr t mem (delegate_mfp_itanium.convert_to_generic t mem ⟨f, d⟩ r2).object = V2) :
    (t.MAME_DELEGATE_VT_DESCRIPTOR = false →
      (delegate_mfp_itanium.convert_to_generic t mem ⟨f, d⟩ r1).entry
        = load_ptr t mem (t.wrap ((V1 : Int) + (f : Int)
            - (if t.MAME_DELEGATE_ITANIUM_ARM then 0 else 1)))
      ∧ (delegate_mfp_itanium.convert_to_generic t mem ⟨f, d⟩ r2).entry
        = load_ptr t mem (t.wrap ((V2 : Int) + (f : Int)
            - (if t.MAME_DELEGATE_ITANIUM_ARM then 0 else 1))))
    ∧ (t.MAME_DELEGATE_VT_DESCRIPTOR = true →
      (delegate_mfp_itanium.convert_to_generic t mem ⟨f, d⟩ r1).entry
        = t.wrap ((V1 : Int) + (f : Int) - (if t.MAME_DELEGATE_ITANIUM_ARM then 0 else 1))
      ∧ (delegate_mfp_itanium.convert_to_generic t mem ⟨f, d⟩ r2).entry
        = t.wrap ((V2 : Int) + (f : Int) - (if t.MAME_DELEGATE_ITANIUM_ARM then 0 else 1))) := by
  have hn := tag_set_not_clear t ⟨f, d⟩ htag
  have e1 := convert_to_generic_entry_vtable t mem ⟨f, d⟩ r1 hn
  have e2 := convert_to_generic_entry_vtable t mem ⟨f, d⟩ r2 hn
  rw [h1] at e1
  rw [h2] at e2
  constructor
  · intro hvt
    rw [e1, e2]
    simp [hvt]
  · intro hvt
    rw [e1, e2]
    simp [hvt]

/-- C5, amended, at concrete inputs: with plain function pointers the descriptor bound
to the slot at offset 8 resolves to `0x401234` against the first object and to the
override `0x405678` against the second. -/
theorem convert_to_generic_override_witness :
    (if target_x64.MAME_DELEGATE_ITANIUM_ARM then (16 : Int) % 2 = 1 else 9 % 2 = 1)
    ∧ (delegate_mfp_itanium.convert_to_generic target_x64 two_object_memory
        ⟨9, 16⟩ 0x1000).entry = 0x401234
    ∧ (delegate_mfp_itanium.convert_to_generic target_x64 two_object_memory
        ⟨9, 16⟩ 0x1800).entry = 0x405678 :=
  ⟨by decide,
   ((convert_to_generic_override target_x64 two_object_memory 9 16 0x1000 0x1800
      0x2000 0x3000 (by decide) (by decide) (by decide)).1 rfl).1.trans (by decide),
   ((convert_to_generic_override target_x64 two_object_memory 9 16 0x1000 0x1800
      0x2000 0x3000 (by decide) (by decide) (by decide)).1 rfl).2.trans (by decide)⟩

/-- C6: in the ARM-like variant the receiver left behind is `r + floor(d / 2)`, so the
field values `2 * k` and `2 * k + 1` both move the receiver by `k`, for every signed
`k`. -/
theorem convert_to_generic_receiver_arm (t : Target) (mem : Memory) (f : Nat) (d : Int)
    (r : Nat) (harm : t.MAME_DELEGATE_ITANIUM_ARM = true) :
    (delegate_mfp_itanium.convert_to_generic t mem ⟨f, d⟩ r).object
      = t.wrap ((r : Int) + ⌊(d : ℚ) / 2⌋)
    ∧ ∀ k : Int,
        (delegate_mfp_itanium.convert_to_generic t mem ⟨f, 2 * k⟩ r).object
          = t.wrap ((r : Int) + k)
        ∧ (delegate_mfp_itanium.convert_to_generic t mem ⟨f, 2 * k + 1⟩ r).object
          = t.wrap ((r : Int) + k) := by
  have key : ∀ e : Int, (delegate_mfp_itanium.convert_to_generic t mem ⟨f, e⟩ r).object
      = t.wrap ((r : Int) + e / 2) := by
    intro e
    have h := convert_to_generic_object t mem ⟨f, e⟩ r
    simp only [harm, if_true, int_shiftRight_one] at h
    exact h
  refine ⟨?_, fun k => ⟨?_, ?_⟩⟩
  · rw [key d]
    have hfl : ⌊(d : ℚ) / ((2 : ℕ) : ℚ)⌋ = d / ((2 : ℕ) : Int) :=
      Rat.floor_intCast_div_natCast d 2
    have hfl2 : ⌊(d : ℚ) / 2⌋ = d / 2 := by exact_mod_cast hfl
    rw [hfl2]
  · rw [key (2 * k)]
    congr 2
    omega
  · rw [key (2 * k + 1)]
    congr 2
    omega

/-- C6 at concrete inputs: the fields 32 and 33 both add 16, and the negative fields
`2 * (-17) = -34` and `2 * (-17) + 1 = -33` both subtract 17. -/
theorem convert_to_generic_receiver_arm_witness :
    target_arm64.MAME_DELEGATE_ITANIUM_ARM = true
    ∧ (delegate_mfp_itanium.convert_to_generic target_arm64 sample_memory
        ⟨8, 2 * 16⟩ 0x1000).object = 0x1010
    ∧ (delegate_mfp_itanium.convert_to_generic target_arm64 sample_memory
        ⟨8, 2 * 16 + 1⟩ 0x1000).object = 0x1010
    ∧ (delegate_mfp_itanium.convert_to_generic target_arm64 sample_memory
        ⟨8, 2 * (-17)⟩ 0x1000).object = 0xfef
    ∧ (delegate_mfp_itanium.convert_to_generic target_arm64 sample_memory
        ⟨8, 2 * (-17) + 1⟩ 0x1000).object = 0xfef :=
  ⟨rfl,
   ((convert_to_generic_receiver_arm target_arm64 sample_memory 8 0 0x1000 rfl).2 16).1.trans
     (by decide),
   ((convert_to_generic_receiver_arm target_arm64 sample_memory 8 0 0x1000 rfl).2 16).2.trans
     (by decide),
   ((convert_to_generic_receiver_arm target_arm64 sample_memory 8 0 0x1000 rfl).2 (-17)).1.trans
     (by decide),
   ((convert_to_generic_receiver_arm target_arm64 sample_memory 8 0 0x1000 rfl).2 (-17)).2.trans
     (by decide)⟩

/-- The vtable pointer is read exactly when the tested bit is set. -/
theorem convert_to_generic_reads_ne_nil (t : Target) (mem : Memory)
    (self : delegate_mfp_itanium) (r : Nat) :
    (delegate_mfp_itanium.convert_to_generic t mem self r).reads ≠ []
      ↔ ¬ (if t.MAME_DELEGATE_ITANIUM_ARM then self.m_this_delta % 2 = 0
        else self.m_function % 2 = 0) := by
  unfold delegate_mfp_itanium.convert_to_generic
  split_ifs <;> simp_all

/-- C7: the case is chosen by one bit, bit 0 of the code-address field in the standard
variant and bit 0 of the displacement field in the ARM-like variant.  The virtual case
(the one that reads the receiver's vtable pointer) is taken exactly when that bit is 1;
when it is 0 the code-address field is returned unchanged and nothing is read; two
descriptors that agree on that bit take the same case whatever their other bits, the
receiver and the memory; and in the ARM-like variant an odd code-address field with an even
displacement field is returned unchanged. -/
theorem convert_to_generic_case_choice (t : Target) (mem : Memory) (f : Nat) (d : Int)
    (r : Nat) :
    ((delegate_mfp_itanium.convert_to_generic t mem ⟨f, d⟩ r).reads ≠ []
      ↔ (if t.MAME_DELEGATE_ITANIUM_ARM then d % 2 = 1 else f % 2 = 1))
    ∧ ((if t.MAME_DELEGATE_ITANIUM_ARM then d % 2 = 0 else f % 2 = 0) →
        (delegate_mfp_itanium.convert_to_generic t mem ⟨f, d⟩ r).entry = f
        ∧ (delegate_mfp_itanium.convert_to_generic t mem ⟨f, d⟩ r).reads = [])
    ∧ (∀ (mem2 : Memory) (f2 : Nat) (d2 : Int) (r2 : Nat),
        (if t.MAME_DELEGATE_ITANIUM_ARM then d2 % 2 = d % 2 else f2 % 2 = f % 2) →
        ((delegate_mfp_itanium.convert_to_generic t mem2 ⟨f2, d2⟩ r2).reads ≠ []
          ↔ (delegate_mfp_itanium.convert_to_generic t mem ⟨f, d⟩ r).reads ≠ []))
    ∧ (t.MAME_DELEGATE_ITANIUM_ARM = true → f % 2 = 1 → d % 2 = 0 →
        (delegate_mfp_itanium.convert_to_generic t mem ⟨f, d⟩ r).entry = f) := by
  refine ⟨?_, ?_, ?_, ?_⟩
  · rw [convert_to_generic_reads_ne_nil]
    cases harm : t.MAME_DELEGATE_ITANIUM_ARM <;> simp
  · intro h
    rw [convert_to_generic_conventional t mem ⟨f, d⟩ r h]
    exact ⟨rfl, rfl⟩
  · intro mem2 f2 d2 r2 h
    rw [convert_to_generic_reads_ne_nil, convert_to_generic_reads_ne_nil]
    cases harm : t.MAME_DELEGATE_ITANIUM_ARM <;> simp [harm] at h ⊢ <;> rw [h]
  · intro harm _ hd
    rw [convert_to_generic_conventional t mem ⟨f, d⟩ r (by simp [harm, hd])]

/-- C7 at concrete inputs: in the ARM-like variant the odd code-address field `0x401235`
with the even displacement 32 is returned unchanged, and with the odd displacement 33
the vtable is consulted instead. -/
theorem convert_to_generic_case_choice_witness :
    (delegate_mfp_itanium.convert_to_generic target_arm64 sample_memory
        ⟨0x401235, 32⟩ 0x1000).entry = 0x401235
    ∧ (delegate_mfp_itanium.convert_to_generic target_arm64 sample_memory
        ⟨0x401235, 32⟩ 0x1000).reads = []
    ∧ (delegate_mfp_itanium.convert_to_generic target_arm64 sample_memory
        ⟨8, 33⟩ 0x1000).reads ≠ [] :=
  ⟨((convert_to_generic_case_choice target_arm64 sample_memory 0x401235 32 0x1000).2.1
      (by decide)).1,
   ((convert_to_generic_case_choice target_arm64 sample_memory 0x401235 32 0x1000).2.1
      (by decide)).2,
   (convert_to_generic_case_choice target_arm64 sample_memory 8 33 0x1000).1.2 (by decide)⟩

/-- C8: in the virtual case, when function pointers are descriptors the entry is the
address of the vtable slot itself (vtable pointer plus the code-address field, less the
tag of the standard variant); only the receiver's first word is read, so the entry is
the same for every memory that agrees with the given one on that word, whatever the
vtable contains.  When function pointers are plain the entry is the value stored in that
slot. -/
theorem convert_to_generic_descriptor_trait (t : Target) (mem : Memory) (f : Nat) (d : Int)
    (r : Nat) (htag : if t.MAME_DELEGATE_ITANIUM_ARM then d % 2 = 1 else f % 2 = 1) :
    (t.MAME_DELEGATE_VT_DESCRIPTOR = true →
      (delegate_mfp_itanium.convert_to_generic t mem ⟨f, d⟩ r).entry
        = t.wrap ((load_ptr t mem
              (delegate_mfp_itanium.convert_to_generic t mem ⟨f, d⟩ r).object : Int)
            + (f : Int) - (if t.MAME_DELEGATE_ITANIUM_ARM then 0 else 1))
      ∧ (delegate_mfp_itanium.convert_to_generic t mem ⟨f, d⟩ r).reads
        = [⟨(delegate_mfp_itanium.convert_to_generic t mem ⟨f, d⟩ r).object, t.ptr_bytes⟩]
      ∧ ∀ mem2 : Memory,
          load_ptr t mem2 (delegate_mfp_itanium.convert_to_generic t mem ⟨f, d⟩ r).object
            = load_ptr t mem (delegate_mfp_itanium.convert_to_generic t mem ⟨f, d⟩ r).object →
          (delegate_mfp_itanium.convert_to_generic t mem2 ⟨f, d⟩ r).entry
            = (delegate_mfp_itanium.convert_to_generic t mem ⟨f, d⟩ r).entry)
    ∧ (t.MAME_DELEGATE_VT_DESCRIPTOR = false →
      (delegate_mfp_itanium.convert_to_generic t mem ⟨f, d⟩ r).entry
        = load_ptr t mem (t.wrap ((load_ptr t mem
              (delegate_mfp_itanium.convert_to_generic t mem ⟨f, d⟩ r).object : Int)
            + (f : Int) - (if t.MAME_DELEGATE_ITANIUM_ARM then 0 else 1)))) := by
  have hn := tag_set_not_clear t ⟨f, d⟩ htag
  have hobj : ∀ m : Memory, (delegate_mfp_itanium.convert_to_generic t m ⟨f, d⟩ r).object
      = (delegate_mfp_itanium.convert_to_generic t mem ⟨f, d⟩ r).object := by
    intro m
    rw [convert_to_generic_object, convert_to_generic_object]
  constructor
  · intro hvt
    refine ⟨?_, ?_, ?_⟩
    · rw [convert_to_generic_entry_vtable t mem ⟨f, d⟩ r hn, if_pos hvt]
    · rw [convert_to_generic_vtable_descriptor t mem ⟨f, d⟩ r hn hvt]
    · intro mem2 h
      rw [convert_to_generic_entry_vtable t mem2 ⟨f, d⟩ r hn,
        convert_to_generic_entry_vtable t mem ⟨f, d⟩ r hn, if_pos hvt, if_pos hvt, hobj mem2, h]
  · intro hvt
    rw [convert_to_generic_entry_vtable t mem ⟨f, d⟩ r hn, hvt]
    simp

/-- C8 at concrete inputs: the same descriptor, receiver and memory give the slot
address `0x2008` when function pointers are descriptors and the slot contents `0x401234`
when they are plain. -/
theorem convert_to_generic_descriptor_trait_witness :
    (if target_ppc64.MAME_DELEGATE_ITANIUM_ARM then (16 : Int) % 2 = 1 else 9 % 2 = 1)
    ∧ (delegate_mfp_itanium.convert_to_generic target_ppc64 sample_memory
        ⟨9, 16⟩ 0x1000).entry = 0x2008
    ∧ (delegate_mfp_itanium.convert_to_generic target_ppc64 sample_memory
        ⟨9, 16⟩ 0x1000).reads = [⟨0x1010, 8⟩]
    ∧ (delegate_mfp_itanium.convert_to_generic target_x64 sample_memory
        ⟨9, 16⟩ 0x1000).entry = 0x401234 :=
  ⟨by decide,
   ((convert_to_generic_descriptor_trait target_ppc64 sample_memory 9 16 0x1000
      (by decide)).1 rfl).1.trans (by decide),
   ((convert_to_generic_descriptor_trait target_ppc64 sample_memory 9 16 0x1000
      (by decide)).1 rfl).2.1.trans (by decide),
   ((convert_to_generic_descriptor_trait target_x64 sample_memory 9 16 0x1000
      (by decide)).2 rfl).trans (by decide)⟩

/-! ## The variable-width convention: `delegate_mfp_msvc::adjust_this_pointer` -/

/-- When the size is not that of `unknown_base_equiv` the dynamic step is skipped. -/
theorem adjust_this_pointer_no_index (t : Target) (mem : Memory) (self : delegate_mfp_msvc)
    (r : Nat) (h : t.sizeof_unknown_base_equiv ≠ self.m_size) :
    delegate_mfp_msvc.adjust_this_pointer t mem self r
      = if t.sizeof_single_base_equiv < self.m_size then
          ⟨t.wrap ((r : Int) + self.m_this_delta), []⟩
        else ⟨r, []⟩ := by
  unfold delegate_mfp_msvc.adjust_this_pointer
  simp [h]

/-- C9: a descriptor of the smallest size class, `m_size = sizeof(single_base_equiv)`,
leaves the receiver exactly as passed in and reads no memory, whatever the displacement,
vtable-pointer-offset and vtable-index fields hold; the two layout structures are taken
to differ in size. -/
theorem adjust_this_pointer_single_base (t : Target) (mem : Memory) (f : Nat)
    (delta vptr_offs vt_index : Int) (r : Nat)
    (hsizes : t.sizeof_single_base_equiv ≠ t.sizeof_unknown_base_equiv) :
    (delegate_mfp_msvc.adjust_this_pointer t mem
        ⟨f, delta, vptr_offs, vt_index, t.sizeof_single_base_equiv⟩ r).object = r
    ∧ (delegate_mfp_msvc.adjust_this_pointer t mem
        ⟨f, delta, vptr_offs, vt_index, t.sizeof_single_base_equiv⟩ r).reads = [] := by
  rw [adjust_this_pointer_no_index t mem _ r (fun h => hsizes h.symm)]
  simp

/-- C9 at a concrete input: size 8 on the 64-bit target, with all three other fields
non-zero. -/
theorem adjust_this_pointer_single_base_witness :
    target_x64.sizeof_single_base_equiv ≠ target_x64.sizeof_unknown_base_equiv
    ∧ (delegate_mfp_msvc.adjust_this_pointer target_x64 sample_memory
        ⟨0x401234, 16, 16, 8, 8⟩ 0x1000).object = 0x1000
    ∧ (delegate_mfp_msvc.adjust_this_pointer target_x64 sample_memory
        ⟨0x401234, 16, 16, 8, 8⟩ 0x1000).reads = [] :=
  ⟨by decide,
   adjust_this_pointer_single_base target_x64 sample_memory 0x401234 16 16 8 0x1000
     (by decide)⟩

/-- C10: a descriptor whose size is above `sizeof(single_base_equiv)` and is not
`sizeof(unknown_base_equiv)` leaves the receiver at `r + m_this_delta` (signed, modulo
the address space) and reads no memory; the outcome is the same for every memory and for
every content of the vtable-pointer-offset and vtable-index positions. -/
theorem adjust_this_pointer_fixed_delta (t : Target) (mem mem2 : Memory) (f : Nat)
    (delta vptr_offs vt_index vptr_offs2 vt_index2 : Int) (size r : Nat)
    (hlow : t.sizeof_single_base_equiv < size) (hhigh : size ≠ t.sizeof_unknown_base_equiv) :
    (delegate_mfp_msvc.adjust_this_pointer t mem
        ⟨f, delta, vptr_offs, vt_index, size⟩ r).object = t.wrap ((r : Int) + delta)
    ∧ (delegate_mfp_msvc.adjust_this_pointer t mem
        ⟨f, delta, vptr_offs, vt_index, size⟩ r).reads = []
    ∧ delegate_mfp_msvc.adjust_this_pointer t mem2 ⟨f, delta, vptr_offs2, vt_index2, size⟩ r
        = delegate_mfp_msvc.adjust_this_pointer t mem ⟨f, delta, vptr_offs, vt_index, size⟩ r := by
  rw [adjust_this_pointer_no_index t mem _ r (fun h => hhigh h.symm),
    adjust_this_pointer_no_index t mem2 _ r (fun h => hhigh h.symm)]
  simp [hlow]

/-- C10 at a concrete input: size 16 on the 64-bit target with displacement -8 and a
non-zero vtable index. -/
theorem adjust_this_pointer_fixed_delta_witness :
    target_x64.sizeof_single_base_equiv < 16 ∧ 16 ≠ target_x64.sizeof_unknown_base_equiv
    ∧ (delegate_mfp_msvc.adjust_this_pointer target_x64 sample_memory
        ⟨0x401234, -8, 16, 8, 16⟩ 0x1018).object = 0x1010
    ∧ (delegate_mfp_msvc.adjust_this_pointer target_x64 sample_memory
        ⟨0x401234, -8, 16, 8, 16⟩ 0x1018).reads = [] :=
  ⟨by decide, by decide,
   (adjust_this_pointer_fixed_delta target_x64 sample_memory sample_memory 0x401234 (-8)
      16 8 16 8 16 0x1018 (by decide) (by decide)).1.trans (by decide),
   (adjust_this_pointer_fixed_delta target_x64 sample_memory sample_memory 0x401234 (-8)
      16 8 16 8 16 0x1018 (by decide) (by decide)).2.1⟩

/-- Adding to an address that was already reduced gives the same machine address as
adding before the reduction. -/
theorem Target.wrap_add_wrap (t : Target) (a b : Int) :
    t.wrap (((t.wrap a : Nat) : Int) + b) = t.wrap (a + b) := by
  have h : ((t.wrap a : Nat) : Int) = a % (t.addr_space : Int) := t.wrap_cast a
  rw [h]
  unfold Target.wrap
  rw [Int.emod_add_emod]

/-- A little-endian load of `n` bytes is below `256 ^ n`. -/
theorem load_le_lt (t : Target) (mem : Memory) (a n : Nat) : load_le t mem a n < 256 ^ n := by
  induction n generalizing a with
  | zero => simp [load_le]
  | succ n ih =>
    have h1 := ih (a + 1)
    have h2 : mem (a % t.addr_space) % 256 < 256 := Nat.mod_lt _ (by norm_num)
    simp only [load_le, pow_succ]
    omega

/-- A big-endian load of `n` bytes on top of the accumulator `acc` is below
`(acc + 1) * 256 ^ n`. -/
theorem load_be_lt (t : Target) (mem : Memory) (a acc n : Nat) :
    load_be t mem a acc n < (acc + 1) * 256 ^ n := by
  induction n generalizing a acc with
  | zero => simp [load_be]
  | succ n ih =>
    have h1 := ih (a + 1) (256 * acc + mem (a % t.addr_space) % 256)
    have h2 : mem (a % t.addr_space) % 256 < 256 := Nat.mod_lt _ (by norm_num)
    have h3 : (256 * acc + mem (a % t.addr_space) % 256 + 1) * 256 ^ n
        ≤ (acc + 1) * 256 ^ (n + 1) := by
      have : 256 * acc + mem (a % t.addr_space) % 256 + 1 ≤ (acc + 1) * 256 := by omega
      calc (256 * acc + mem (a % t.addr_space) % 256 + 1) * 256 ^ n
          ≤ ((acc + 1) * 256) * 256 ^ n := Nat.mul_le_mul_right _ this
        _ = (acc + 1) * 256 ^ (n + 1) := by ring
    simp only [load_be]
    omega

/-- An `n`-byte load is below `256 ^ n` in either byte order. -/
theorem load_unsigned_lt (t : Target) (mem : Memory) (a n : Nat) :
    load_unsigned t mem a n < 256 ^ n := by
  unfold load_unsigned
  split_ifs
  · have h := load_be_lt t mem a 0 n
    simpa using h
  · exact load_le_lt t mem a n

/-- A loaded `int` lies in the range of a signed 32-bit integer. -/
theorem load_int_range (t : Target) (mem : Memory) (a : Nat) :
    -(2 ^ 31 : Int) ≤ load_int t mem a ∧ load_int t mem a < 2 ^ 31 := by
  have h := load_unsigned_lt t mem a sizeof_int
  have h4 : (256 : Nat) ^ sizeof_int = 4294967296 := by decide
  rw [h4] at h
  unfold load_int
  simp only [sizeof_int] at h ⊢
  norm_num
  split_ifs with hlt <;> constructor <;> omega

/-- When the size is that of `unknown_base_equiv` and the vtable index is non-zero, the
dynamic step is taken, followed by the fixed one when the size exceeds that of
`single_base_equiv`. -/
theorem adjust_this_pointer_with_index (t : Target) (mem : Memory) (self : delegate_mfp_msvc)
    (r : Nat) (hsize : t.sizeof_unknown_base_equiv = self.m_size) (hidx : self.m_vt_index ≠ 0) :
    delegate_mfp_msvc.adjust_this_pointer t mem self r
      = if t.sizeof_single_base_equiv < self.m_size then
          ⟨t.wrap ((r : Int)
              + load_int t mem (t.wrap ((load_ptr t mem
                  (t.wrap ((r : Int) + self.m_vptr_offs)) : Int) + self.m_vt_index))
              + self.m_this_delta),
           [⟨t.wrap ((r : Int) + self.m_vptr_offs), t.ptr_bytes⟩,
            ⟨t.wrap ((load_ptr t mem (t.wrap ((r : Int) + self.m_vptr_offs)) : Int)
              + self.m_vt_index), sizeof_int⟩]⟩
        else
          ⟨t.wrap ((r : Int)
              + load_int t mem (t.wrap ((load_ptr t mem
                  (t.wrap ((r : Int) + self.m_vptr_offs)) : Int) + self.m_vt_index))),
           [⟨t.wrap ((r : Int) + self.m_vptr_offs), t.ptr_bytes⟩,
            ⟨t.wrap ((load_ptr t mem (t.wrap ((r : Int) + self.m_vptr_offs)) : Int)
              + self.m_vt_index), sizeof_int⟩]⟩ := by
  unfold delegate_mfp_msvc.adjust_this_pointer
  simp only [hsize, hidx, ne_eq, not_false_eq_true, and_self, if_true]
  split_ifs
  · simp only [Target.wrap_add_wrap]
  · rfl

/-- C11: for a descriptor of the largest size class, `m_size = sizeof(unknown_base_equiv)`,
with a non-zero vtable index, the receiver becomes `r + s + m_this_delta`, where `P` is
the pointer stored at `r + m_vptr_offs` and `s` is the `int` stored at `P + m_vt_index`,
a signed 32-bit value; exactly these two locations are read. -/
theorem adjust_this_pointer_virtual_base (t : Target) (mem : Memory) (f : Nat)
    (delta vptr_offs vt_index : Int) (r : Nat)
    (hsizes : t.sizeof_single_base_equiv < t.sizeof_unknown_base_equiv)
    (hidx : vt_index ≠ 0) :
    (delegate_mfp_msvc.adjust_this_pointer t mem
        ⟨f, delta, vptr_offs, vt_index, t.sizeof_unknown_base_equiv⟩ r).object
      = t.wrap ((r : Int)
          + load_int t mem (t.wrap ((load_ptr t mem (t.wrap ((r : Int) + vptr_offs)) : Int)
              + vt_index))
          + delta)
    ∧ -(2 ^ 31 : Int) ≤ load_int t mem
        (t.wrap ((load_ptr t mem (t.wrap ((r : Int) + vptr_offs)) : Int) + vt_index))
    ∧ load_int t mem
        (t.wrap ((load_ptr t mem (t.wrap ((r : Int) + vptr_offs)) : Int) + vt_index)) < 2 ^ 31
    ∧ (delegate_mfp_msvc.adjust_this_pointer t mem
        ⟨f, delta, vptr_offs, vt_index, t.sizeof_unknown_base_equiv⟩ r).reads
      = [⟨t.wrap ((r : Int) + vptr_offs), t.ptr_bytes⟩,
         ⟨t.wrap ((load_ptr t mem (t.wrap ((r : Int) + vptr_offs)) : Int) + vt_index),
          sizeof_int⟩] := by
  have h := adjust_this_pointer_with_index t mem
    ⟨f, delta, vptr_offs, vt_index, t.sizeof_unknown_base_equiv⟩ r rfl hidx
  rw [if_pos hsizes] at h
  have hr := load_int_range t mem
    (t.wrap ((load_ptr t mem (t.wrap ((r : Int) + vptr_offs)) : Int) + vt_index))
  rw [h]
  exact ⟨rfl, hr.1, hr.2, rfl⟩

/-- C11 at a concrete input: size 24 on the 64-bit target, pointer `0x2000` found at
`0x1000 + 0x10`, `int` -16 found at `0x2000 + 4`, fixed displacement 8: the receiver
moves backwards from `0x1000` to `0x1000 - 16 + 8 = 0xff8`. -/
theorem adjust_this_pointer_virtual_base_witness :
    target_x64.sizeof_single_base_equiv < target_x64.sizeof_unknown_base_equiv
    ∧ (4 : Int) ≠ 0
    ∧ load_ptr target_x64 virtual_base_memory 0x1010 = 0x2000
    ∧ load_int target_x64 virtual_base_memory 0x2004 = -16
    ∧ (delegate_mfp_msvc.adjust_this_pointer target_x64 virtual_base_memory
        ⟨0x401234, 8, 0x10, 4, 24⟩ 0x1000).object = 0xff8 :=
  ⟨by decide, by decide, by decide, by decide,
   (adjust_this_pointer_virtual_base target_x64 virtual_base_memory 0x401234 8 0x10 4 0x1000
      (by decide) (by decide)).1.trans (by decide)⟩

/-- C12: for a descriptor of the largest size class whose vtable index is zero the
receiver becomes `r + m_this_delta` and no memory is read; the outcome is the same for
every memory and every vtable-pointer offset. -/
theorem adjust_this_pointer_zero_index (t : Target) (mem mem2 : Memory) (f : Nat)
    (delta vptr_offs vptr_offs2 : Int) (r : Nat)
    (hsizes : t.sizeof_single_base_equiv < t.sizeof_unknown_base_equiv) :
    (delegate_mfp_msvc.adjust_this_pointer t mem
        ⟨f, delta, vptr_offs, 0, t.sizeof_unknown_base_equiv⟩ r).object
      = t.wrap ((r : Int) + delta)
    ∧ (delegate_mfp_msvc.adjust_this_pointer t mem
        ⟨f, delta, vptr_offs, 0, t.sizeof_unknown_base_equiv⟩ r).reads = []
    ∧ delegate_mfp_msvc.adjust_this_pointer t mem2
        ⟨f, delta, vptr_offs2, 0, t.sizeof_unknown_base_equiv⟩ r
      = delegate_mfp_msvc.adjust_this_pointer t mem
        ⟨f, delta, vptr_offs, 0, t.sizeof_unknown_base_equiv⟩ r := by
  have key : ∀ (m : Memory) (v : Int), delegate_mfp_msvc.adjust_this_pointer t m
      ⟨f, delta, v, 0, t.sizeof_unknown_base_equiv⟩ r = ⟨t.wrap ((r : Int) + delta), []⟩ := by
    intro m v
    unfold delegate_mfp_msvc.adjust_this_pointer
    simp [hsizes]
  rw [key mem vptr_offs, key mem2 vptr_offs2]
  exact ⟨rfl, rfl, rfl⟩

/-- C12 at a concrete input: the memory that would yield -16 through the table is not
consulted when the index is zero; only the fixed displacement 8 is added. -/
theorem adjust_this_pointer_zero_index_witness :
    target_x64.sizeof_single_base_equiv < target_x64.sizeof_unknown_base_equiv
    ∧ (delegate_mfp_msvc.adjust_this_pointer target_x64 virtual_base_memory
        ⟨0x401234, 8, 0x10, 0, 24⟩ 0x1000).object = 0x1008
    ∧ (delegate_mfp_msvc.adjust_this_pointer target_x64 virtual_base_memory
        ⟨0x401234, 8, 0x10, 0, 24⟩ 0x1000).reads = [] :=
  ⟨by decide,
   (adjust_this_pointer_zero_index target_x64 virtual_base_memory virtual_base_memory
      0x401234 8 0x10 0x10 0x1000 (by decide)).1.trans (by decide),
   (adjust_this_pointer_zero_index target_x64 virtual_base_memory virtual_base_memory
      0x401234 8 0x10 0x10 0x1000 (by decide)).2.1⟩

/-- The fixed step, applied to whatever the dynamic step left, when the size exceeds
that of `single_base_equiv`: the outcome with fixed displacement `delta` is the outcome
with fixed displacement zero moved by `delta`, with the same accesses. -/
theorem adjust_this_pointer_fixed_step (t : Target) (mem : Memory) (f : Nat)
    (delta vptr_offs vt_index : Int) (size r : Nat) (hlow : t.sizeof_single_base_equiv < size) :
    (delegate_mfp_msvc.adjust_this_pointer t mem
        ⟨f, delta, vptr_offs, vt_index, size⟩ r).object
      = t.wrap (((delegate_mfp_msvc.adjust_this_pointer t mem
          ⟨f, 0, vptr_offs, vt_index, size⟩ r).object : Int) + delta)
    ∧ (delegate_mfp_msvc.adjust_this_pointer t mem
        ⟨f, delta, vptr_offs, vt_index, size⟩ r).reads
      = (delegate_mfp_msvc.adjust_this_pointer t mem
          ⟨f, 0, vptr_offs, vt_index, size⟩ r).reads := by
  unfold delegate_mfp_msvc.adjust_this_pointer
  simp only [hlow, if_true, add_zero]
  split_ifs <;> simp [Target.wrap_add_wrap]

/-- C13: for a descriptor of a size class above the smallest, replacing `m_this_delta`
by `m_this_delta + k` moves the resulting receiver by exactly `k` (modulo the address
space) and leaves the list of memory accesses unchanged: the dynamic displacement is
looked up through the receiver as passed in. -/
theorem adjust_this_pointer_delta_shift (t : Target) (mem : Memory) (f : Nat)
    (delta vptr_offs vt_index k : Int) (size r : Nat)
    (hlow : t.sizeof_single_base_equiv < size) :
    (delegate_mfp_msvc.adjust_this_pointer t mem
        ⟨f, delta + k, vptr_offs, vt_index, size⟩ r).object
      = t.wrap (((delegate_mfp_msvc.adjust_this_pointer t mem
          ⟨f, delta, vptr_offs, vt_index, size⟩ r).object : Int) + k)
    ∧ (delegate_mfp_msvc.adjust_this_pointer t mem
        ⟨f, delta + k, vptr_offs, vt_index, size⟩ r).reads
      = (delegate_mfp_msvc.adjust_this_pointer t mem
          ⟨f, delta, vptr_offs, vt_index, size⟩ r).reads := by
  have h1 := adjust_this_pointer_fixed_step t mem f (delta + k) vptr_offs vt_index size r hlow
  have h2 := adjust_this_pointer_fixed_step t mem f delta vptr_offs vt_index size r hlow
  refine ⟨?_, h1.2.trans h2.2.symm⟩
  rw [h1.1, h2.1, Target.wrap_add_wrap, add_assoc]

/-- C13 at a concrete input: with the dynamic displacement -16 in play, raising the
fixed displacement from 8 to 8 + 32 moves the result from `0xff8` to `0x1018`, and the
same two locations are read. -/
theorem adjust_this_pointer_delta_shift_witness :
    target_x64.sizeof_single_base_equiv < 24
    ∧ (delegate_mfp_msvc.adjust_this_pointer target_x64 virtual_base_memory
        ⟨0x401234, 8, 0x10, 4, 24⟩ 0x1000).object = 0xff8
    ∧ (delegate_mfp_msvc.adjust_this_pointer target_x64 virtual_base_memory
        ⟨0x401234, 8 + 32, 0x10, 4, 24⟩ 0x1000).object = 0x1018
    ∧ (delegate_mfp_msvc.adjust_this_pointer target_x64 virtual_base_memory
        ⟨0x401234, 8 + 32, 0x10, 4, 24⟩ 0x1000).reads = [⟨0x1010, 8⟩, ⟨0x2004, 4⟩] :=
  ⟨by decide, by decide,
   (adjust_this_pointer_delta_shift target_x64 virtual_base_memory 0x401234 8 0x10 4 32 24
      0x1000 (by decide)).1.trans (by decide),
   (adjust_this_pointer_delta_shift target_x64 virtual_base_memory 0x401234 8 0x10 4 32 24
      0x1000 (by decide)).2.trans (by decide)⟩

/-- C14, as stated, fails: `adjust_this_pointer` returns an adjusted receiver for sizes
that belong to no class.  On the 64-bit target, where the two structure sizes are 8 and
24, size 4 leaves the receiver `0x1000` unchanged and size 100 returns
`0x1000 + 16`. -/
theorem adjust_this_pointer_unrecognised_size_counterexample :
    4 < target_x64.sizeof_single_base_equiv ∧ target_x64.sizeof_unknown_base_equiv < 100
    ∧ delegate_mfp_msvc.adjust_this_pointer target_x64 sample_memory
        ⟨0x401234, 16, 16, 8, 4⟩ 0x1000 = ⟨0x1000, []⟩
    ∧ delegate_mfp_msvc.adjust_this_pointer target_x64 sample_memory
        ⟨0x401234, 16, 16, 8, 100⟩ 0x1000 = ⟨0x1010, []⟩ := by
  decide

/-- C14, amended: `adjust_this_pointer` has no failure path.  For every size other than
`sizeof(unknown_base_equiv)` it returns without reading memory: the receiver unchanged
when the size does not exceed `sizeof(single_base_equiv)` (this covers every size below
the smallest class), and the receiver plus `m_this_delta` when it does (this covers
every size above the largest class). -/
theorem adjust_this_pointer_any_size (t : Target) (mem : Memory) (f : Nat)
    (delta vptr_offs vt_index : Int) (size r : Nat)
    (hsize : size ≠ t.sizeof_unknown_base_equiv) :
    (size ≤ t.sizeof_single_base_equiv →
      delegate_mfp_msvc.adjust_this_pointer t mem ⟨f, delta, vptr_offs, vt_index, size⟩ r
        = ⟨r, []⟩)
    ∧ (t.sizeof_single_base_equiv < size →
      delegate_mfp_msvc.adjust_this_pointer t mem ⟨f, delta, vptr_offs, vt_index, size⟩ r
        = ⟨t.wrap ((r : Int) + delta), []⟩) := by
  have h := adjust_this_pointer_no_index t mem ⟨f, delta, vptr_offs, vt_index, size⟩ r
    (fun e => hsize e.symm)
  constructor
  · intro hle
    rw [h, if_neg (by simpa using hle)]
  · intro hlt
    rw [h, if_pos hlt]

/-- C14, amended, at concrete inputs: sizes 4 and 100 on the 64-bit target. -/
theorem adjust_this_pointer_any_size_witness :
    (4 : Nat) ≠ target_x64.sizeof_unknown_base_equiv
    ∧ (100 : Nat) ≠ target_x64.sizeof_unknown_base_equiv
    ∧ delegate_mfp_msvc.adjust_this_pointer target_x64 sample_memory
        ⟨0x401234, 16, 16, 8, 4⟩ 0x1000 = ⟨0x1000, []⟩
    ∧ delegate_mfp_msvc.adjust_this_pointer target_x64 sample_memory
        ⟨0x401234, 16, 16, 8, 100⟩ 0x1000 = ⟨0x1010, []⟩ :=
  ⟨by decide, by decide,
   (adjust_this_pointer_any_size target_x64 sample_memory 0x401234 16 16 8 4 0x1000
      (by decide)).1 (by decide),
   ((adjust_this_pointer_any_size target_x64 sample_memory 0x401234 16 16 8 100 0x1000
      (by decide)).2 (by decide)).trans (by decide)⟩

/-! ## Repeated resolution -/

/-- A call of `convert_to_generic` leaves the memory and the descriptor as they were. -/
theorem convert_to_generic_call_frame (t : Target) (s : call_state delegate_mfp_itanium) :
    (delegate_mfp_itanium.convert_to_generic_call t s).1.mem = s.mem
    ∧ (delegate_mfp_itanium.convert_to_generic_call t s).1.self = s.self :=
  ⟨rfl, rfl⟩

/-- A call of `adjust_this_pointer` leaves the memory and the descriptor as they were. -/
theorem adjust_this_pointer_call_frame (t : Target) (s : call_state delegate_mfp_msvc) :
    (delegate_mfp_msvc.adjust_this_pointer_call t s).mem = s.mem
    ∧ (delegate_mfp_msvc.adjust_this_pointer_call t s).self = s.self :=
  ⟨rfl, rfl⟩

/-- Any sequence of resolutions leaves the memory and the descriptor as they were. -/
theorem resolve_each_frame (t : Target) (rs : List Nat) (s : call_state delegate_mfp_itanium) :
    (delegate_mfp_itanium.resolve_each t s rs).mem = s.mem
    ∧ (delegate_mfp_itanium.resolve_each t s rs).self = s.self := by
  induction rs generalizing s with
  | nil => exact ⟨rfl, rfl⟩
  | cons r rs ih =>
    have h := ih (delegate_mfp_itanium.convert_to_generic_call t (s.with_object r)).1
    simpa [delegate_mfp_itanium.resolve_each, delegate_mfp_itanium.convert_to_generic_call,
      call_state.with_object] using h

/-- Any sequence of adjustments leaves the memory and the descriptor as they were. -/
theorem adjust_each_frame (t : Target) (rs : List Nat) (s : call_state delegate_mfp_msvc) :
    (delegate_mfp_msvc.adjust_each t s rs).mem = s.mem
    ∧ (delegate_mfp_msvc.adjust_each t s rs).self = s.self := by
  induction rs generalizing s with
  | nil => exact ⟨rfl, rfl⟩
  | cons r rs ih =>
    have h := ih (delegate_mfp_msvc.adjust_this_pointer_call t (s.with_object r))
    simpa [delegate_mfp_msvc.adjust_each, delegate_mfp_msvc.adjust_this_pointer_call,
      call_state.with_object] using h

/-- C15: calling a decoder a second time, in the state the first call left and with the
caller's variable set back to the original receiver, gives the same returned entry and
the same adjusted receiver as the first call; this holds for `convert_to_generic` and
for `adjust_this_pointer`. -/
theorem resolution_repeatable (t : Target) (mem : Memory) (mfp : delegate_mfp_itanium)
    (mfp2 : delegate_mfp_msvc) (r : Nat) :
    delegate_mfp_itanium.convert_to_generic_call t
        ((delegate_mfp_itanium.convert_to_generic_call t ⟨mem, mfp, r⟩).1.with_object r)
      = delegate_mfp_itanium.convert_to_generic_call t ⟨mem, mfp, r⟩
    ∧ (delegate_mfp_itanium.convert_to_generic_call t
        ((delegate_mfp_itanium.convert_to_generic_call t ⟨mem, mfp, r⟩).1.with_object r)).2
      = (delegate_mfp_itanium.convert_to_generic t mem mfp r).entry
    ∧ (delegate_mfp_itanium.convert_to_generic_call t
        ((delegate_mfp_itanium.convert_to_generic_call t ⟨mem, mfp, r⟩).1.with_object r)).1.object
      = (delegate_mfp_itanium.convert_to_generic t mem mfp r).object
    ∧ delegate_mfp_msvc.adjust_this_pointer_call t
        ((delegate_mfp_msvc.adjust_this_pointer_call t ⟨mem, mfp2, r⟩).with_object r)
      = delegate_mfp_msvc.adjust_this_pointer_call t ⟨mem, mfp2, r⟩
    ∧ (delegate_mfp_msvc.adjust_this_pointer_call t
        ((delegate_mfp_msvc.adjust_this_pointer_call t ⟨mem, mfp2, r⟩).with_object r)).object
      = (delegate_mfp_msvc.adjust_this_pointer t mem mfp2 r).object :=
  ⟨rfl, rfl, rfl, rfl, rfl⟩

/-- C16: resolution has no side effect.  After resolving against any list of receivers,
the memory and every field of the descriptor are what they were, for both decoders; only
the caller's receiver variable has changed, so resolving against a receiver `r`
afterwards returns what resolving against `r` returned at the start. -/
theorem resolution_side_effect_free (t : Target) (mem : Memory) (mfp : delegate_mfp_itanium)
    (mfp2 : delegate_mfp_msvc) (r0 r : Nat) (rs : List Nat) :
    (delegate_mfp_itanium.resolve_each t ⟨mem, mfp, r0⟩ rs).mem = mem
    ∧ (delegate_mfp_itanium.resolve_each t ⟨mem, mfp, r0⟩ rs).self = mfp
    ∧ delegate_mfp_itanium.convert_to_generic_call t
        ((delegate_mfp_itanium.resolve_each t ⟨mem, mfp, r0⟩ rs).with_object r)
      = delegate_mfp_itanium.convert_to_generic_call t ⟨mem, mfp, r⟩
    ∧ (delegate_mfp_msvc.adjust_each t ⟨mem, mfp2, r0⟩ rs).mem = mem
    ∧ (delegate_mfp_msvc.adjust_each t ⟨mem, mfp2, r0⟩ rs).self = mfp2
    ∧ delegate_mfp_msvc.adjust_this_pointer_call t
        ((delegate_mfp_msvc.adjust_each t ⟨mem, mfp2, r0⟩ rs).with_object r)
      = delegate_mfp_msvc.adjust_this_pointer_call t ⟨mem, mfp2, r⟩ := by
  have h1 := resolve_each_frame t rs ⟨mem, mfp, r0⟩
  have h2 := adjust_each_frame t rs ⟨mem, mfp2, r0⟩
  refine ⟨h1.1, h1.2, ?_, h2.1, h2.2, ?_⟩
  · unfold call_state.with_object
    rw [h1.1, h1.2]
  · unfold call_state.with_object
    rw [h2.1, h2.2]

/-- C17: rebinding a two-word descriptor to a receiver `o2` after it was resolved
against `o1` gives what resolving against `o2` alone gives; the adjusted receiver is
`o2` plus the effective displacement, the offset from `o2` is the offset from `o1`
(modulo the address space), and in the non-virtual case both resolutions return the
same entry. -/
theorem convert_to_generic_rebind (t : Target) (mem : Memory) (f : Nat) (d : Int)
    (o1 o2 : Nat) :
    delegate_mfp_itanium.convert_to_generic_call t
        ((delegate_mfp_itanium.convert_to_generic_call t ⟨mem, ⟨f, d⟩, o1⟩).1.with_object o2)
      = delegate_mfp_itanium.convert_to_generic_call t ⟨mem, ⟨f, d⟩, o2⟩
    ∧ (delegate_mfp_itanium.convert_to_generic t mem ⟨f, d⟩ o2).object
      = t.wrap ((o2 : Int) + (d >>> (if t.MAME_DELEGATE_ITANIUM_ARM then (1 : Nat) else 0)))
    ∧ t.wrap (((delegate_mfp_itanium.convert_to_generic t mem ⟨f, d⟩ o2).object : Int) - o2)
      = t.wrap (((delegate_mfp_itanium.convert_to_generic t mem ⟨f, d⟩ o1).object : Int) - o1)
    ∧ ((if t.MAME_DELEGATE_ITANIUM_ARM then d % 2 = 0 else f % 2 = 0) →
        (delegate_mfp_itanium.convert_to_generic t mem ⟨f, d⟩ o2).entry
          = (delegate_mfp_itanium.convert_to_generic t mem ⟨f, d⟩ o1).entry) := by
  have off : ∀ o : Nat,
      t.wrap (((delegate_mfp_itanium.convert_to_generic t mem ⟨f, d⟩ o).object : Int) - o)
        = t.wrap (d >>> (if t.MAME_DELEGATE_ITANIUM_ARM then (1 : Nat) else 0)) := by
    intro o
    rw [convert_to_generic_object, sub_eq_add_neg, Target.wrap_add_wrap]
    congr 1
    simp
  refine ⟨rfl, convert_to_generic_object t mem ⟨f, d⟩ o2, ?_, ?_⟩
  · rw [off o2, off o1]
  · intro h
    rw [convert_to_generic_conventional t mem ⟨f, d⟩ o2 h,
      convert_to_generic_conventional t mem ⟨f, d⟩ o1 h]

/-- C17 at concrete inputs: a non-virtual descriptor with displacement 16, bound to
`0x1000` and rebound to `0x1800`, ends at `0x1810` with the same entry. -/
theorem convert_to_generic_rebind_witness :
    (delegate_mfp_itanium.convert_to_generic_call target_x64
        ((delegate_mfp_itanium.convert_to_generic_call target_x64
          ⟨two_object_memory, ⟨0x400000, 16⟩, 0x1000⟩).1.with_object 0x1800)).1.object = 0x1810
    ∧ (delegate_mfp_itanium.convert_to_generic target_x64 two_object_memory
        ⟨0x400000, 16⟩ 0x1800).entry
      = (delegate_mfp_itanium.convert_to_generic target_x64 two_object_memory
        ⟨0x400000, 16⟩ 0x1000).entry :=
  ⟨(congrArg (fun p => p.1.object)
      (convert_to_generic_rebind target_x64 two_object_memory 0x400000 16 0x1000 0x1800).1).trans
      (by decide),
   (convert_to_generic_rebind target_x64 two_object_memory 0x400000 16 0x1000 0x1800).2.2.2
     (by decide)⟩

/-! ## The late binding exception and the typed delegate -/

/-- C18: the exception constructed with `(target_type, actual_type)` records the first
as its target (expected) type and the second as its actual type; when the two differ,
neither field holds the other argument. -/
theorem binding_type_exception_records_types (target_type actual_type : std.type_info) :
    (binding_type_exception.binding_type_exception target_type actual_type).m_target_type
      = target_type
    ∧ (binding_type_exception.binding_type_exception target_type actual_type).m_actual_type
      = actual_type
    ∧ (target_type ≠ actual_type →
        (binding_type_exception.binding_type_exception target_type actual_type).m_target_type
          ≠ actual_type
        ∧ (binding_type_exception.binding_type_exception target_type actual_type).m_actual_type
          ≠ target_type) :=
  ⟨rfl, rfl, fun h => ⟨h, fun e => h e.symm⟩⟩

/-- C18 at a concrete input: expecting `Base`, given `Other`. -/
theorem binding_type_exception_records_types_witness :
    (binding_type_exception.binding_type_exception type_Base type_Other).m_target_type
      = ⟨1, "Base"⟩
    ∧ (binding_type_exception.binding_type_exception type_Base type_Other).m_actual_type
      = ⟨3, "Other"⟩
    ∧ (binding_type_exception.binding_type_exception type_Base type_Other).m_target_type
      ≠ type_Other :=
  ⟨(binding_type_exception_records_types type_Base type_Other).1,
   (binding_type_exception_records_types type_Base type_Other).2.1,
   ((binding_type_exception_records_types type_Base type_Other).2.2 (by decide)).1⟩

/-- C19: a `bind` whose receiver type is neither the declared interface nor derived from
it fails with the binding-type-mismatch error, which carries the interface as expected
type and the receiver's type as actual type, and leaves the delegate exactly as it was,
so that invoking it afterwards does what invoking it before did. -/
theorem bind_type_mismatch {A R : Type} (t : Target) (mem : Memory)
    (derived_from : std.type_info → std.type_info → Bool) (d : TypedDelegate)
    (receiver : Receiver) (mp : member_pointer) (jump : CallableSlot → A → R) (args : A)
    (hne : receiver.static_type ≠ d.binding.declared_signature)
    (hnd : derived_from receiver.static_type d.binding.declared_signature = false) :
    (d.bind t mem derived_from receiver mp).1 = d
    ∧ (d.bind t mem derived_from receiver mp).2
      = some (.binding_type_mismatch
          (binding_type_exception.binding_type_exception d.binding.declared_signature
            receiver.static_type))
    ∧ (binding_type_exception.binding_type_exception d.binding.declared_signature
          receiver.static_type).m_target_type = d.binding.declared_signature
    ∧ (binding_type_exception.binding_type_exception d.binding.declared_signature
          receiver.static_type).m_actual_type = receiver.static_type
    ∧ TypedDelegate.invoke jump (d.bind t mem derived_from receiver mp).1 args
      = TypedDelegate.invoke jump d args := by
  have hcheck : type_reachable derived_from receiver.static_type
      d.binding.declared_signature = false := by
    simp [type_reachable, hne, hnd]
  have hbind : d.bind t mem derived_from receiver mp
      = (d, some (.binding_type_mismatch
          (binding_type_exception.binding_type_exception d.binding.declared_signature
            receiver.static_type))) := by
    unfold TypedDelegate.bind
    simp [hcheck]
  rw [hbind]
  exact ⟨rfl, rfl, rfl, rfl, rfl⟩

/-- C19 at a concrete input: a delegate declared against `Base` and bound to a `Derived`
object at `0x1800` keeps its slot, the override `0x405678` on the adjusted receiver
`0x1810`, when a later `bind` to an object of the unrelated type `Other` is rejected. -/
theorem bind_type_mismatch_witness :
    ((TypedDelegate.empty type_Base).bind target_x64 two_object_memory sample_hierarchy
        ⟨0x1800, type_Derived⟩ (.two_word ⟨9, 16⟩)).1.resolved = ⟨0x405678, some 0x1810⟩
    ∧ (((TypedDelegate.empty type_Base).bind target_x64 two_object_memory sample_hierarchy
        ⟨0x1800, type_Derived⟩ (.two_word ⟨9, 16⟩)).1.bind target_x64 two_object_memory
          sample_hierarchy ⟨0x1000, type_Other⟩ (.two_word ⟨9, 16⟩)).1
      = ((TypedDelegate.empty type_Base).bind target_x64 two_object_memory sample_hierarchy
        ⟨0x1800, type_Derived⟩ (.two_word ⟨9, 16⟩)).1 :=
  ⟨by decide,
   (bind_type_mismatch target_x64 two_object_memory sample_hierarchy
      ((TypedDelegate.empty type_Base).bind target_x64 two_object_memory sample_hierarchy
        ⟨0x1800, type_Derived⟩ (.two_word ⟨9, 16⟩)).1
      ⟨0x1000, type_Other⟩ (.two_word ⟨9, 16⟩) (fun (s : CallableSlot) (_ : Unit) => s) ()
      (by decide) (by decide)).1⟩

/-- No operation changes the interface a delegate was declared against. -/
theorem apply_declared_signature (t : Target) (mem : Memory)
    (derived_from : std.type_info → std.type_info → Bool) (d : TypedDelegate)
    (op : delegate_op) :
    (d.apply t mem derived_from op).1.binding.declared_signature
      = d.binding.declared_signature := by
  cases op with
  | bind_free function => rfl
  | bind receiver mp =>
    simp only [TypedDelegate.apply, TypedDelegate.bind]
    split_ifs <;> rfl
  | rebind new_receiver =>
    simp only [TypedDelegate.apply, TypedDelegate.rebind]
    split_ifs <;> rfl

/-- A delegate that is bound through a member pointer after one operation either was so
before it, or the operation was a `bind` that passed the type check. -/
theorem apply_member_bound (t : Target) (mem : Memory)
    (derived_from : std.type_info → std.type_info → Bool) (d : TypedDelegate)
    (op : delegate_op)
    (h : (d.apply t mem derived_from op).1.is_bound = true
      ∧ (d.apply t mem derived_from op).1.binding.decoder_kind ≠ .identity) :
    (d.is_bound = true ∧ d.binding.decoder_kind ≠ .identity)
    ∨ ∃ receiver mp, op = .bind receiver mp
        ∧ type_reachable derived_from receiver.static_type d.binding.declared_signature
          = true := by
  cases op with
  | bind_free function =>
    exact absurd rfl h.2
  | bind receiver mp =>
    by_cases hc : type_reachable derived_from receiver.static_type
        d.binding.declared_signature = true
    · exact Or.inr ⟨receiver, mp, rfl, hc⟩
    · left
      simpa [TypedDelegate.apply, TypedDelegate.bind, hc] using h
  | rebind new_receiver =>
    left
    by_cases hc : d.is_bound = true ∧ d.binding.decoder_kind ≠ .identity
    · exact hc
    · simp [TypedDelegate.apply, TypedDelegate.rebind, hc] at h

/-- A delegate that is bound through a member pointer after a sequence of operations
either was so before it, or one of the operations was a `bind` that passed the type
check. -/
theorem run_member_bound (t : Target) (mem : Memory)
    (derived_from : std.type_info → std.type_info → Bool) (ops : List delegate_op)
    (d : TypedDelegate)
    (h : (TypedDelegate.run t mem derived_from d ops).is_bound = true
      ∧ (TypedDelegate.run t mem derived_from d ops).binding.decoder_kind ≠ .identity) :
    (d.is_bound = true ∧ d.binding.decoder_kind ≠ .identity)
    ∨ ∃ receiver mp, delegate_op.bind receiver mp ∈ ops
        ∧ type_reachable derived_from receiver.static_type d.binding.declared_signature
          = true := by
  induction ops generalizing d with
  | nil => exact Or.inl h
  | cons op ops ih =>
    have hsig := apply_declared_signature t mem derived_from d op
    rcases ih (d.apply t mem derived_from op).1 h with h1 | ⟨receiver, mp, hmem, hc⟩
    · rcases apply_member_bound t mem derived_from d op h1 with h2 | ⟨receiver, mp, hop, hc⟩
      · exact Or.inl h2
      · exact Or.inr ⟨receiver, mp, by rw [hop]; exact List.mem_cons_self _ _, hc⟩
    · rw [hsig] at hc
      exact Or.inr ⟨receiver, mp, List.mem_cons_of_mem _ hmem, hc⟩

/-- C20: `rebind` on a delegate that is unbound or bound to a free function fails with
the not-rebindable condition and leaves the delegate, and so its slot, as it was; this
holds in particular for a delegate as created and for one just bound with `bind_free`.
Conversely a `rebind` that succeeds was called on a delegate bound through a member
pointer, and on a delegate reached from a newly created one by any operations that
requires an earlier `bind` that passed the type check. -/
theorem rebind_requires_member_bind (t : Target) (mem : Memory)
    (derived_from : std.type_info → std.type_info → Bool) (d : TypedDelegate)
    (interface : std.type_info) (function new_receiver : Nat) (ops : List delegate_op) :
    ((d.is_bound = false ∨ d.binding.decoder_kind = .identity) →
        d.rebind t mem new_receiver = (d, some .not_rebindable))
    ∧ (TypedDelegate.empty interface).rebind t mem new_receiver
        = (TypedDelegate.empty interface, some .not_rebindable)
    ∧ (d.bind_free function).1.rebind t mem new_receiver
        = ((d.bind_free function).1, some .not_rebindable)
    ∧ ((d.rebind t mem new_receiver).2 = none →
        d.is_bound = true ∧ d.binding.decoder_kind ≠ .identity)
    ∧ (((TypedDelegate.run t mem derived_from (TypedDelegate.empty interface) ops).rebind
          t mem new_receiver).2 = none →
        ∃ receiver mp, delegate_op.bind receiver mp ∈ ops
          ∧ type_reachable derived_from receiver.static_type interface = true) := by
  have fail : ∀ e : TypedDelegate, (e.is_bound = false ∨ e.binding.decoder_kind = .identity) →
      e.rebind t mem new_receiver = (e, some .not_rebindable) := by
    intro e he
    unfold TypedDelegate.rebind
    rw [if_neg]
    rintro ⟨hb, hk⟩
    rcases he with he | he
    · rw [he] at hb
      exact Bool.noConfusion hb
    · exact hk he
  have succeed : ∀ e : TypedDelegate, (e.rebind t mem new_receiver).2 = none →
      e.is_bound = true ∧ e.binding.decoder_kind ≠ .identity := by
    intro e he
    by_contra hc
    unfold TypedDelegate.rebind at he
    rw [if_neg hc] at he
    exact Option.noConfusion he
  refine ⟨fail d, fail _ (Or.inl rfl), fail _ (Or.inr rfl), succeed d, ?_⟩
  intro h
  rcases run_member_bound t mem derived_from ops (TypedDelegate.empty interface)
    (succeed _ h) with h1 | h2
  · exact absurd rfl h1.2
  · exact h2

/-- C20 at concrete inputs: `rebind` fails on a new delegate and on one bound to the
free function at `0x400000`, and succeeds after a `bind` of a member pointer to a
`Derived` object, moving the slot to the other object's vtable entry. -/
theorem rebind_requires_member_bind_witness :
    (TypedDelegate.empty type_Base).rebind target_x64 two_object_memory 0x1000
      = (TypedDelegate.empty type_Base, some .not_rebindable)
    ∧ ((TypedDelegate.empty type_Base).bind_free 0x400000).1.rebind target_x64
        two_object_memory 0x1000
      = (((TypedDelegate.empty type_Base).bind_free 0x400000).1, some .not_rebindable)
    ∧ ((TypedDelegate.run target_x64 two_object_memory sample_hierarchy
          (TypedDelegate.empty type_Base)
          [.bind ⟨0x1800, type_Derived⟩ (.two_word ⟨9, 16⟩)]).rebind target_x64
        two_object_memory 0x1000).2 = none
    ∧ ((TypedDelegate.run target_x64 two_object_memory sample_hierarchy
          (TypedDelegate.empty type_Base)
          [.bind ⟨0x1800, type_Derived⟩ (.two_word ⟨9, 16⟩)]).rebind target_x64
        two_object_memory 0x1000).1.resolved = ⟨0x401234, some 0x1010⟩ :=
  ⟨(rebind_requires_member_bind target_x64 two_object_memory sample_hierarchy
      (TypedDelegate.empty type_Base) type_Base 0x400000 0x1000 []).2.1,
   (rebind_requires_member_bind target_x64 two_object_memory sample_hierarchy
      (TypedDelegate.empty type_Base) type_Base 0x400000 0x1000 []).2.2.1,
   by decide, by decide⟩

/-- C21: after `bind_free` of the function at `address` the delegate is bound, its slot
holds that address with no receiver, its decoder is the identity, which consults neither
a receiver nor the memory, and `invoke` returns what the function returns; `jump` is the
host's call through a slot, which runs `f` when given the address of `f`. -/
theorem bind_free_invoke {A R : Type} (jump : CallableSlot → A → R) (d : TypedDelegate)
    (address : Nat) (f : A → R) (args : A) (hf : ∀ a, jump ⟨address, none⟩ a = f a) :
    (d.bind_free address).2 = none
    ∧ (d.bind_free address).1.is_bound = true
    ∧ (d.bind_free address).1.resolved = ⟨address, none⟩
    ∧ (d.bind_free address).1.binding.decoder_kind = .identity
    ∧ (∀ (t : Target) (mem : Memory) (r : Nat),
        (d.bind_free address).1.binding.resolve t mem r = ⟨address, none⟩)
    ∧ TypedDelegate.invoke jump (d.bind_free address).1 args = .ok (f args) := by
  refine ⟨rfl, rfl, rfl, rfl, fun _ _ _ => rfl, ?_⟩
  unfold TypedDelegate.invoke TypedDelegate.bind_free
  simp [hf]

/-- C21 at a concrete input: the successor function placed at `0x400000`, invoked on 41
through a delegate declared against `Base`. -/
theorem bind_free_invoke_witness :
    TypedDelegate.invoke (fun (s : CallableSlot) (a : Nat) => if s.entry = 0x400000 then a + 1 else 0)
        ((TypedDelegate.empty type_Base).bind_free 0x400000).1 41 = .ok 42
    ∧ ((TypedDelegate.empty type_Base).bind_free 0x400000).1.resolved = ⟨0x400000, none⟩ :=
  ⟨(bind_free_invoke (fun (s : CallableSlot) (a : Nat) => if s.entry = 0x400000 then a + 1 else 0)
      (TypedDelegate.empty type_Base) 0x400000 (fun a => a + 1) 41 (fun _ => rfl)).2.2.2.2.2,
   (bind_free_invoke (fun (s : CallableSlot) (a : Nat) => if s.entry = 0x400000 then a + 1 else 0)
      (TypedDelegate.empty type_Base) 0x400000 (fun a => a + 1) 41 (fun _ => rfl)).2.2.1⟩

/-- C22: in the ARM-like variant without function descriptors, a displacement field with
bit 0 set makes the entry the pointer-sized value stored at `V + f`, where `V` is the
pointer-sized value stored at the adjusted receiver `r + (d >> 1)` and `f` is the whole
code-address field; these two locations are exactly the ones read. -/
theorem convert_to_generic_virtual_arm (t : Target) (mem : Memory) (f : Nat) (d : Int)
    (r : Nat) (harm : t.MAME_DELEGATE_ITANIUM_ARM = true)
    (hvt : t.MAME_DELEGATE_VT_DESCRIPTOR = false) (hbit : d % 2 = 1) :
    (delegate_mfp_itanium.convert_to_generic t mem ⟨f, d⟩ r).entry
      = load_ptr t mem
          (t.wrap ((load_ptr t mem (t.wrap ((r : Int) + d >>> (1 : Nat))) : Int) + (f : Int)))
    ∧ (delegate_mfp_itanium.convert_to_generic t mem ⟨f, d⟩ r).reads
      = [⟨t.wrap ((r : Int) + d >>> (1 : Nat)), t.ptr_bytes⟩,
         ⟨t.wrap ((load_ptr t mem (t.wrap ((r : Int) + d >>> (1 : Nat))) : Int) + (f : Int)),
          t.ptr_bytes⟩] := by
  have h := convert_to_generic_vtable t mem ⟨f, d⟩ r (by simp [harm, hbit]) hvt
  simp only [harm, if_true, sub_zero] at h
  rw [h]
  exact ⟨rfl, rfl⟩

/-- C22 at a concrete input: displacement field 33 moves the receiver `0x1000` by 16 to
`0x1010`, where the vtable pointer `0x2000` is found; field 8 selects the slot at
`0x2008`, nothing being subtracted. -/
theorem convert_to_generic_virtual_arm_witness :
    target_arm64.MAME_DELEGATE_ITANIUM_ARM = true
    ∧ target_arm64.MAME_DELEGATE_VT_DESCRIPTOR = false ∧ (33 : Int) % 2 = 1
    ∧ (delegate_mfp_itanium.convert_to_generic target_arm64 sample_memory ⟨8, 33⟩ 0x1000).entry
        = 0x401234
    ∧ (delegate_mfp_itanium.convert_to_generic target_arm64 sample_memory ⟨8, 33⟩ 0x1000).reads
        = [⟨0x1010, 8⟩, ⟨0x2008, 8⟩] :=
  ⟨rfl, rfl, by decide,
   (convert_to_generic_virtual_arm target_arm64 sample_memory 8 33 0x1000 rfl rfl
     (by decide)).1.trans (by decide),
   (convert_to_generic_virtual_arm target_arm64 sample_memory 8 33 0x1000 rfl rfl
     (by decide)).2.trans (by decide)⟩

/-- C23: the text returned by `what` is the fixed sentence with the target type's name
first and the actual type's name second, and it is the same after any number of earlier
calls of `what` on the object. -/
theorem binding_type_exception_what_text (target_type actual_type : std.type_info) (n : Nat) :
    (binding_type_exception.binding_type_exception target_type actual_type).what
      = "Error performing late bind of function expecting type " ++ target_type.name
          ++ " to instance of type " ++ actual_type.name
    ∧ ((fun e : binding_type_exception => e.what_call.1)^[n]
        (binding_type_exception.binding_type_exception target_type actual_type)).what_call.2
      = "Error performing late bind of function expecting type " ++ target_type.name
          ++ " to instance of type " ++ actual_type.name := by
  refine ⟨rfl, ?_⟩
  rw [Function.iterate_fixed (by rfl)]
  rfl

/-- C23 at a concrete input: expecting `Base`, given `Other`. -/
theorem binding_type_exception_what_text_witness :
    (binding_type_exception.binding_type_exception type_Base type_Other).what
      = "Error performing late bind of function expecting type Base to instance of type Other" :=
  (binding_type_exception_what_text type_Base type_Other 0).1.trans (by decide)

/-- Two mathematical addresses denote the same machine address exactly when they are
congruent modulo the size of the address space. -/
theorem Target.wrap_eq_iff (t : Target) (a b : Int) :
    t.wrap a = t.wrap b ↔ a % (t.addr_space : Int) = b % (t.addr_space : Int) := by
  constructor
  · intro h
    rw [← t.wrap_cast a, ← t.wrap_cast b, h]
  · intro h
    unfold Target.wrap
    rw [h]

/-- C24: the adjustment is applied in place and accumulates.  A second call with the same
descriptor, started on the receiver the first call left, ends at `r + 2 * e`, where `e`
is the effective displacement (`d`, or `d >> 1` in the ARM-like variant); this equals the
once-adjusted receiver exactly when `e` is zero modulo the size of the address space. -/
theorem convert_to_generic_twice (t : Target) (mem : Memory) (f : Nat) (d : Int) (r : Nat) :
    (delegate_mfp_itanium.convert_to_generic_call t
        (delegate_mfp_itanium.convert_to_generic_call t ⟨mem, ⟨f, d⟩, r⟩).1).1.object
      = t.wrap ((r : Int)
          + 2 * (d >>> (if t.MAME_DELEGATE_ITANIUM_ARM then (1 : Nat) else 0)))
    ∧ ((delegate_mfp_itanium.convert_to_generic_call t
          (delegate_mfp_itanium.convert_to_generic_call t ⟨mem, ⟨f, d⟩, r⟩).1).1.object
        = (delegate_mfp_itanium.convert_to_generic_call t ⟨mem, ⟨f, d⟩, r⟩).1.object
      ↔ (d >>> (if t.MAME_DELEGATE_ITANIUM_ARM then (1 : Nat) else 0))
          % (t.addr_space : Int) = 0) := by
  have h1 : (delegate_mfp_itanium.convert_to_generic_call t ⟨mem, ⟨f, d⟩, r⟩).1.object
      = t.wrap ((r : Int)
          + (d >>> (if t.MAME_DELEGATE_ITANIUM_ARM then (1 : Nat) else 0))) :=
    convert_to_generic_object t mem ⟨f, d⟩ r
  have h2 : (delegate_mfp_itanium.convert_to_generic_call t
        (delegate_mfp_itanium.convert_to_generic_call t ⟨mem, ⟨f, d⟩, r⟩).1).1.object
      = t.wrap ((r : Int)
          + 2 * (d >>> (if t.MAME_DELEGATE_ITANIUM_ARM then (1 : Nat) else 0))) := by
    have h := convert_to_generic_object t mem ⟨f, d⟩
      (delegate_mfp_itanium.convert_to_generic_call t ⟨mem, ⟨f, d⟩, r⟩).1.object
    refine h.trans ?_
    rw [h1, Target.wrap_add_wrap]
    congr 1
    ring
  refine ⟨h2, ?_⟩
  rw [h2, h1, Target.wrap_eq_iff, Int.emod_eq_emod_iff_emod_sub_eq_zero]
  have e : (r : Int) + 2 * (d >>> (if t.MAME_DELEGATE_ITANIUM_ARM then (1 : Nat) else 0))
      - ((r : Int) + (d >>> (if t.MAME_DELEGATE_ITANIUM_ARM then (1 : Nat) else 0)))
      = d >>> (if t.MAME_DELEGATE_ITANIUM_ARM then (1 : Nat) else 0) := by ring
  rw [e]

/-- C24 at concrete inputs: with displacement 16 the second call moves `0x1010` on to
`0x1020`; with the ARM-like field 1, whose effective displacement is zero, both calls
leave `0x1010`. -/
theorem convert_to_generic_twice_witness :
    (delegate_mfp_itanium.convert_to_generic_call target_x64
        (delegate_mfp_itanium.convert_to_generic_call target_x64
          ⟨sample_memory, ⟨0x400000, 16⟩, 0x1000⟩).1).1.object = 0x1020
    ∧ (delegate_mfp_itanium.convert_to_generic_call target_arm64
        (delegate_mfp_itanium.convert_to_generic_call target_arm64
          ⟨sample_memory, ⟨8, 1⟩, 0x1010⟩).1).1.object
      = (delegate_mfp_itanium.convert_to_generic_call target_arm64
          ⟨sample_memory, ⟨8, 1⟩, 0x1010⟩).1.object :=
  ⟨(convert_to_generic_twice target_x64 sample_memory 0x400000 16 0x1000).1.trans (by decide),
   (convert_to_generic_twice target_arm64 sample_memory 8 1 0x1010).2.2 (by decide)⟩

/-- Subtracting one from an odd number clears bit 0 and leaves every other bit. -/
theorem pred_odd_testBit (f : Nat) (h : f % 2 = 1) :
    (f - 1).testBit 0 = false ∧ ∀ i, 0 < i → (f - 1).testBit i = f.testBit i := by
  constructor
  · rw [Nat.testBit_zero]
    simp
    omega
  · intro i hi
    obtain ⟨j, rfl⟩ : ∃ j, i = j + 1 := ⟨i - 1, by omega⟩
    rw [Nat.testBit_succ, Nat.testBit_succ]
    congr 1
    omega

/-- Subtracting one from an odd `n`-bit number is masking it with the `n`-bit complement
of 1. -/
theorem pred_odd_eq_land (f n : Nat) (hf : f < 2 ^ n) (h : f % 2 = 1) :
    f - 1 = f &&& (2 ^ n - 2) := by
  apply Nat.eq_of_testBit_eq
  intro i
  rw [Nat.testBit_land]
  cases i with
  | zero =>
    have h1 : (f - 1).testBit 0 = false := (pred_odd_testBit f h).1
    have h2 : (2 ^ n - 2).testBit 0 = false := by
      rw [Nat.testBit_zero]
      simp
      rcases n with _ | n
      · simp
      · rw [pow_succ]
        omega
    rw [h1, h2]
    simp
  | succ j =>
    rw [Nat.testBit_succ, Nat.testBit_succ, Nat.testBit_succ]
    have e1 : (f - 1) / 2 = f / 2 := by omega
    rw [e1]
    rcases n with _ | n
    · have : f = 0 := by simpa using hf
      subst this
      simp at h
    · have e2 : (2 ^ (n + 1) - 2) / 2 = 2 ^ n - 1 := by
        rw [pow_succ]
        omega
      rw [e2, Nat.testBit_two_pow_sub_one]
      by_cases hj : j < n
      · simp [hj]
      · have hz : (f / 2).testBit j = false := by
          apply Nat.testBit_lt_two_pow
          have h3 : 2 ^ n ≤ 2 ^ j := Nat.pow_le_pow_right (by norm_num) (by omega)
          have h4 : f / 2 < 2 ^ n := by
            rw [pow_succ] at hf
            omega
          omega
        simp [hz]

/-- C25: in the virtual case of the standard variant the byte offset used into the
vtable is `f - 1` computed without borrow or wrap: `f` is at least 1, `f - 1` is `f`
with bit 0 cleared and every other bit kept, which is `f AND NOT 1` at pointer width, and
it is even. -/
theorem convert_to_generic_offset_tag_removed (t : Target) (mem : Memory) (f : Nat) (d : Int)
    (r : Nat) (harm : t.MAME_DELEGATE_ITANIUM_ARM = false) (hbit : f % 2 = 1)
    (hf : f < t.addr_space) :
    (delegate_mfp_itanium.convert_to_generic t mem ⟨f, d⟩ r).entry
      = (if t.MAME_DELEGATE_VT_DESCRIPTOR then
          t.wrap ((load_ptr t mem
              (delegate_mfp_itanium.convert_to_generic t mem ⟨f, d⟩ r).object : Int)
            + ((f - 1 : Nat) : Int))
        else
          load_ptr t mem (t.wrap ((load_ptr t mem
              (delegate_mfp_itanium.convert_to_generic t mem ⟨f, d⟩ r).object : Int)
            + ((f - 1 : Nat) : Int))))
    ∧ 1 ≤ f
    ∧ (f - 1) % 2 = 0
    ∧ (f - 1).testBit 0 = false
    ∧ (∀ i, 0 < i → (f - 1).testBit i = f.testBit i)
    ∧ f - 1 = f &&& (t.addr_space - 2) := by
  have hpos : 1 ≤ f := by omega
  have hcast : ((f - 1 : Nat) : Int) = (f : Int) - 1 := by omega
  have hbits := pred_odd_testBit f hbit
  refine ⟨?_, hpos, by omega, hbits.1, hbits.2, pred_odd_eq_land f _ hf hbit⟩
  rw [convert_to_generic_entry_vtable t mem ⟨f, d⟩ r (by simp [harm, hbit])]
  simp only [harm, Bool.false_eq_true, if_false, hcast, add_sub_assoc]

/-- C25 at a concrete input: field 9 on the 64-bit target uses offset 8, which is
9 with bit 0 cleared. -/
theorem convert_to_generic_offset_tag_removed_witness :
    target_x64.MAME_DELEGATE_ITANIUM_ARM = false ∧ 9 % 2 = 1 ∧ 9 < target_x64.addr_space
    ∧ 9 - 1 = 9 &&& (target_x64.addr_space - 2)
    ∧ (delegate_mfp_itanium.convert_to_generic target_x64 sample_memory ⟨9, 16⟩ 0x1000).entry
        = 0x401234 :=
  ⟨rfl, by decide, by decide,
   (convert_to_generic_offset_tag_removed target_x64 sample_memory 9 16 0x1000 rfl
     (by decide) (by decide)).2.2.2.2.2,
   (convert_to_generic_offset_tag_removed target_x64 sample_memory 9 16 0x1000 rfl
     (by decide) (by decide)).1.trans (by decide)⟩

end util.detail

/-! ## The GMS driver handlers -/

/-- A mask with the single bit `i` gives zero exactly when bit `i` is clear. -/
theorem land_pow_eq_zero (x i : Nat) : x &&& 2 ^ i = 0 ↔ x.testBit i = false := by
  rw [Nat.and_two_pow]
  cases h : x.testBit i <;> simp

/-- A mask with the single bit `i` gives non-zero exactly when bit `i` is set. -/
theorem land_pow_ne_zero (x i : Nat) : x &&& 2 ^ i ≠ 0 ↔ x.testBit i = true := by
  rw [Ne, land_pow_eq_zero]
  simp

/-- An AND is below any bound on its left operand. -/
theorem land_lt_of_lt (res v n : Nat) (h : res < n) : (res &&& v) < n :=
  lt_of_le_of_lt Nat.and_le_left h

/-- Storing an AND with a 16-bit left operand into a `uint16_t` does not truncate. -/
theorem land_mod_word (a v : Nat) (h : a < 0x10000) : (a &&& v) % 0x10000 = a &&& v :=
  Nat.mod_eq_of_lt (land_lt_of_lt a v _ h)

/-- What `input_matrix_r` returns after `input_matrix_w data`, bank 0 being present. -/
theorem input_matrix_r_eq (s : gms_2layers_state) (data v0 : Nat) (h0 : s.m_dsw 0 = some v0) :
    (s.input_matrix_w data).input_matrix_r
      = some (selected_banks_and data 12 0xffff
          [v0, read_safe (s.m_dsw 1) 0xffff, read_safe (s.m_dsw 2) 0xffff,
           read_safe (s.m_dsw 3) 0xffff]) := by
  have z12 : (data &&& 0x1000 = 0) ↔ data.testBit 12 = false := land_pow_eq_zero data 12
  have z13 : (data &&& 0x2000 = 0) ↔ data.testBit 13 = false := land_pow_eq_zero data 13
  have z14 : (data &&& 0x4000 = 0) ↔ data.testBit 14 = false := land_pow_eq_zero data 14
  have z15 : (data &&& 0x8000 = 0) ↔ data.testBit 15 = false := land_pow_eq_zero data 15
  have b0 : (0xffff : Nat) < 0x10000 := by norm_num
  have l1 : ∀ a : Nat, (0xffff &&& a) % 0x10000 = 0xffff &&& a :=
    fun a => land_mod_word _ a b0
  have l2 : ∀ a b : Nat, (0xffff &&& a &&& b) % 0x10000 = 0xffff &&& a &&& b :=
    fun a b => land_mod_word _ b (land_lt_of_lt _ a _ b0)
  have l3 : ∀ a b c : Nat, (0xffff &&& a &&& b &&& c) % 0x10000 = 0xffff &&& a &&& b &&& c :=
    fun a b c => land_mod_word _ c (land_lt_of_lt _ b _ (land_lt_of_lt _ a _ b0))
  have l4 : ∀ a b c d : Nat,
      (0xffff &&& a &&& b &&& c &&& d) % 0x10000 = 0xffff &&& a &&& b &&& c &&& d :=
    fun a b c d => land_mod_word _ d
      (land_lt_of_lt _ c _ (land_lt_of_lt _ b _ (land_lt_of_lt _ a _ b0)))
  cases h12 : data.testBit 12 <;> cases h13 : data.testBit 13 <;>
    cases h14 : data.testBit 14 <;> cases h15 : data.testBit 15 <;>
    simp [gms_2layers_state.input_matrix_r, gms_2layers_state.input_matrix_w, h0,
      z12, z13, z14, z15, selected_banks_and, h12, h13, h14, h15, l1, l2, l3, l4]

/-- Selecting more banks, from an accumulator with no more bits set, leaves no more bits
set in the AND. -/
theorem selected_banks_and_mono (banks : List Nat) (sel sel2 bit acc acc2 : Nat)
    (hsel : ∀ i, sel.testBit i = true → sel2.testBit i = true)
    (hacc : ∀ k, acc2.testBit k = true → acc.testBit k = true) (k : Nat)
    (h : (selected_banks_and sel2 bit acc2 banks).testBit k = true) :
    (selected_banks_and sel bit acc banks).testBit k = true := by
  induction banks generalizing bit acc acc2 with
  | nil => exact hacc k h
  | cons v vs ih =>
    simp only [selected_banks_and] at h ⊢
    refine ih (bit + 1) _ _ ?_ h
    intro j hj
    by_cases c : sel.testBit bit = true
    · have c2 := hsel bit c
      rw [if_pos c2, Nat.testBit_land] at hj
      rw [if_pos c, Nat.testBit_land]
      simp only [Bool.and_eq_true] at hj ⊢
      exact ⟨hacc j hj.1, hj.2⟩
    · rw [if_neg c]
      by_cases c2 : sel2.testBit bit = true
      · rw [if_pos c2, Nat.testBit_land] at hj
        simp only [Bool.and_eq_true] at hj
        exact hacc j hj.1
      · rw [if_neg c2] at hj
        exact hacc j hj

/-- C26: after `input_matrix_w data`, `input_matrix_r` returns the 16-bit AND of the DIP
banks whose select bit is set in `data` (bit 12 for bank 0 up to bit 15 for bank 3), an
absent bank 1, 2 or 3 counting as `0xffff`; with no select bit set it returns `0xffff`;
and setting further bits of `data` never sets a bit of the result.  Bank 0 is read
through its port pointer and is taken to exist. -/
theorem input_matrix_r_selected_banks (s : gms_2layers_state) (data v0 : Nat)
    (h0 : s.m_dsw 0 = some v0) :
    (s.input_matrix_w data).input_matrix_r
      = some (selected_banks_and data 12 0xffff
          [v0, read_safe (s.m_dsw 1) 0xffff, read_safe (s.m_dsw 2) 0xffff,
           read_safe (s.m_dsw 3) 0xffff])
    ∧ (∀ i, s.m_dsw i = none → read_safe (s.m_dsw i) 0xffff = 0xffff)
    ∧ (data.testBit 12 = false → data.testBit 13 = false → data.testBit 14 = false →
        data.testBit 15 = false → (s.input_matrix_w data).input_matrix_r = some 0xffff)
    ∧ (∀ extra : Nat, ∃ r1 r2 : Nat,
        (s.input_matrix_w data).input_matrix_r = some r1
        ∧ (s.input_matrix_w (data ||| extra)).input_matrix_r = some r2
        ∧ ∀ k, r2.testBit k = true → r1.testBit k = true) := by
  refine ⟨input_matrix_r_eq s data v0 h0, ?_, ?_, ?_⟩
  · intro i hi
    rw [hi]
    rfl
  · intro h12 h13 h14 h15
    rw [input_matrix_r_eq s data v0 h0]
    simp [selected_banks_and, h12, h13, h14, h15]
  · intro extra
    refine ⟨_, _, input_matrix_r_eq s data v0 h0, input_matrix_r_eq s (data ||| extra) v0 h0, ?_⟩
    intro k hk
    refine selected_banks_and_mono _ data (data ||| extra) 12 _ _ ?_ (fun _ h => h) k hk
    intro i hi
    rw [Nat.testBit_lor, hi]
    rfl

/-- C26 at concrete inputs: banks `0xff0f`, `0xf0ff`, `0x0fff` and an absent fourth bank;
selecting banks 0 and 1 reads `0xf00f`, selecting all four reads `0x000f`, selecting none
reads `0xffff`. -/
theorem input_matrix_r_selected_banks_witness :
    sample_gms_state.m_dsw 0 = some 0xff0f
    ∧ (sample_gms_state.input_matrix_w 0x3000).input_matrix_r = some 0xf00f
    ∧ (sample_gms_state.input_matrix_w 0xf000).input_matrix_r = some 0x000f
    ∧ (sample_gms_state.input_matrix_w 0x0fff).input_matrix_r = some 0xffff :=
  ⟨rfl,
   (input_matrix_r_selected_banks sample_gms_state 0x3000 0xff0f rfl).1.trans (by decide),
   (input_matrix_r_selected_banks sample_gms_state 0xf000 0xff0f rfl).1.trans (by decide),
   (input_matrix_r_selected_banks sample_gms_state 0x0fff 0xff0f rfl).2.2.1
     (by decide) (by decide) (by decide) (by decide)⟩

/-- The mask `0x0fff` keeps the low twelve bits. -/
theorem land_0fff (x : Nat) : x &&& 0x0fff = x % 0x1000 :=
  Nat.and_pow_two_sub_one_eq_mod x 12

/-- The mask 3 keeps the low two bits. -/
theorem land_3 (x : Nat) : x &&& 3 = x % 4 :=
  Nat.and_pow_two_sub_one_eq_mod x 2

/-- Bit 4 moved down to bit 0. -/
theorem land_10_shift (x : Nat) : (x &&& 0x10) >>> 4 = x / 16 % 2 := by
  have h := Nat.and_two_pow x 4
  have h2 := Nat.toNat_testBit x 4
  rw [show (0x10 : Nat) = 2 ^ 4 from rfl, h, h2, Nat.shiftRight_eq_div_pow]
  norm_num

/-- The facts about one tile code built from a video RAM word `t` and a bank number. -/
theorem tile_code_split (t bank : Nat) :
    (t &&& 0x0fff) + bank * 0x1000 = (t &&& 0x0fff) + 0x1000 * bank
    ∧ ((t &&& 0x0fff) + bank * 0x1000) &&& 0x0fff = t &&& 0x0fff
    ∧ ((t &&& 0x0fff) + bank * 0x1000) >>> 12 = bank
    ∧ (t >>> 12) * 0x1000 + (((t &&& 0x0fff) + bank * 0x1000) &&& 0x0fff) = t
    ∧ (t < 0x10000 → t >>> 12 < 16) := by
  have e : ∀ x : Nat, x >>> 12 = x / 0x1000 := fun x => Nat.shiftRight_eq_div_pow x 12
  simp only [land_0fff, e]
  refine ⟨by omega, by omega, by omega, by omega, by omega⟩

/-- C27: each tile callback splits the video RAM word `t` of its layer into the low
twelve bits, to which it adds `0x1000` times a bank taken from the tile bank register
`b` (bit 4 for layer 0, bits 2..1 for layer 1, bits 10..9 for layer 2), and a colour
`t >> 12`.  Hence the low twelve bits of the code are those of `t`, the code shifted
right by twelve is the bank, the code is below `0x2000` for layer 0 and below `0x4000`
for layers 1 and 2, the colour of a 16-bit word is at most 15, and colour and low code
bits put together give back `t`. -/
theorem tile_info_split (s : gms_2layers_state) (b tile_index : Nat) :
    (((s.tilebank_w b).get_tile0_info tile_index).code
        = (s.m_vidram 0 tile_index &&& 0xfff) + 0x1000 * (b / 16 % 2)
      ∧ ((s.tilebank_w b).get_tile0_info tile_index).color = s.m_vidram 0 tile_index >>> 12
      ∧ ((s.tilebank_w b).get_tile0_info tile_index).code &&& 0xfff
          = s.m_vidram 0 tile_index &&& 0xfff
      ∧ ((s.tilebank_w b).get_tile0_info tile_index).code >>> 12 = b / 16 % 2
      ∧ ((s.tilebank_w b).get_tile0_info tile_index).code < 0x2000
      ∧ ((s.tilebank_w b).get_tile0_info tile_index).color * 0x1000
          + (((s.tilebank_w b).get_tile0_info tile_index).code &&& 0xfff)
          = s.m_vidram 0 tile_index
      ∧ (s.m_vidram 0 tile_index < 0x10000 →
          ((s.tilebank_w b).get_tile0_info tile_index).color < 16))
    ∧ (((s.tilebank_w b).get_tile1_info tile_index).code
        = (s.m_vidram 1 tile_index &&& 0xfff) + 0x1000 * (b / 2 % 4)
      ∧ ((s.tilebank_w b).get_tile1_info tile_index).color = s.m_vidram 1 tile_index >>> 12
      ∧ ((s.tilebank_w b).get_tile1_info tile_index).code &&& 0xfff
          = s.m_vidram 1 tile_index &&& 0xfff
      ∧ ((s.tilebank_w b).get_tile1_info tile_index).code >>> 12 = b / 2 % 4
      ∧ ((s.tilebank_w b).get_tile1_info tile_index).code < 0x4000
      ∧ ((s.tilebank_w b).get_tile1_info tile_index).color * 0x1000
          + (((s.tilebank_w b).get_tile1_info tile_index).code &&& 0xfff)
          = s.m_vidram 1 tile_index
      ∧ (s.m_vidram 1 tile_index < 0x10000 →
          ((s.tilebank_w b).get_tile1_info tile_index).color < 16))
    ∧ ((gms_3layers_state.get_tile2_info (s.tilebank_w b) tile_index).code
        = (s.m_vidram 2 tile_index &&& 0xfff) + 0x1000 * (b / 512 % 4)
      ∧ (gms_3layers_state.get_tile2_info (s.tilebank_w b) tile_index).color
          = s.m_vidram 2 tile_index >>> 12
      ∧ (gms_3layers_state.get_tile2_info (s.tilebank_w b) tile_index).code &&& 0xfff
          = s.m_vidram 2 tile_index &&& 0xfff
      ∧ (gms_3layers_state.get_tile2_info (s.tilebank_w b) tile_index).code >>> 12
          = b / 512 % 4
      ∧ (gms_3layers_state.get_tile2_info (s.tilebank_w b) tile_index).code < 0x4000
      ∧ (gms_3layers_state.get_tile2_info (s.tilebank_w b) tile_index).color * 0x1000
          + ((gms_3layers_state.get_tile2_info (s.tilebank_w b) tile_index).code &&& 0xfff)
          = s.m_vidram 2 tile_index
      ∧ (s.m_vidram 2 tile_index < 0x10000 →
          (gms_3layers_state.get_tile2_info (s.tilebank_w b) tile_index).color < 16)) := by
  have bank0 : (b &&& 0x10) >>> 4 = b / 16 % 2 := land_10_shift b
  have bank1 : (b >>> 1) &&& 3 = b / 2 % 4 := by
    rw [land_3, Nat.shiftRight_eq_div_pow]
  have bank2 : (b >>> 9) &&& 3 = b / 512 % 4 := by
    rw [land_3, Nat.shiftRight_eq_div_pow]
  have lt0 : ∀ t : Nat, (t &&& 0xfff) + (b / 16 % 2) * 0x1000 < 0x2000 := by
    intro t
    rw [land_0fff]
    omega
  have lt1 : ∀ t k : Nat, (t &&& 0xfff) + (k % 4) * 0x1000 < 0x4000 := by
    intro t k
    rw [land_0fff]
    omega
  refine ⟨?_, ?_, ?_⟩
  · have h := tile_code_split (s.m_vidram 0 tile_index) (b / 16 % 2)
    simp only [gms_2layers_state.get_tile0_info, gms_2layers_state.tilebank_w, bank0]
    exact ⟨h.1, trivial, h.2.1, h.2.2.1, lt0 _, h.2.2.2.1, h.2.2.2.2⟩
  · have h := tile_code_split (s.m_vidram 1 tile_index) (b / 2 % 4)
    simp only [gms_2layers_state.get_tile1_info, gms_2layers_state.tilebank_w, bank1]
    exact ⟨h.1, trivial, h.2.1, h.2.2.1, lt1 _ _, h.2.2.2.1, h.2.2.2.2⟩
  · have h := tile_code_split (s.m_vidram 2 tile_index) (b / 512 % 4)
    simp only [gms_3layers_state.get_tile2_info, gms_2layers_state.tilebank_w, bank2]
    exact ⟨h.1, trivial, h.2.1, h.2.2.1, lt1 _ _, h.2.2.2.1, h.2.2.2.2⟩

/-- C27 at concrete inputs: the word `0xa123` with tile bank register `0x0614` (bit 4
set, bits 2..1 equal to 2, bits 10..9 equal to 3) gives the codes `0x1123`, `0x2123` and
`0x3123` and the colour `0xa` on the three layers. -/
theorem tile_info_split_witness :
    sample_gms_state.m_vidram 0 5 < 0x10000
    ∧ ((sample_gms_state.tilebank_w 0x0614).get_tile0_info 5).code = 0x1123
    ∧ ((sample_gms_state.tilebank_w 0x0614).get_tile1_info 5).code = 0x2123
    ∧ (gms_3layers_state.get_tile2_info (sample_gms_state.tilebank_w 0x0614) 5).code = 0x3123
    ∧ ((sample_gms_state.tilebank_w 0x0614).get_tile0_info 5).color = 0xa
    ∧ ((sample_gms_state.tilebank_w 0x0614).get_tile0_info 5).color < 16 :=
  ⟨by decide,
   (tile_info_split sample_gms_state 0x0614 5).1.1.trans (by decide),
   (tile_info_split sample_gms_state 0x0614 5).2.1.1.trans (by decide),
   (tile_info_split sample_gms_state 0x0614 5).2.2.1.trans (by decide),
   (tile_info_split sample_gms_state 0x0614 5).1.2.1.trans (by decide),
   (tile_info_split sample_gms_state 0x0614 5).1.2.2.2.2.2.2 (by decide)⟩

/-- The value `mcu_io_mux_w` stores: the complement within eight bits. -/
theorem mcu_io_mux_w_value (s : gms_2layers_state) (v : Nat) :
    (s.mcu_io_mux_w v).m_mux_data = 255 - v % 256 := by
  simp only [gms_2layers_state.mcu_io_mux_w]
  omega

/-- Each of the low eight bits of `255 - v % 256` is the opposite of that bit of `v`. -/
theorem complement_testBit (v i : Nat) (hi : i < 8) :
    (255 - v % 256).testBit i = !v.testBit i := by
  have hlt : v % 256 < 2 ^ 8 := Nat.mod_lt _ (by norm_num)
  have h := Nat.testBit_two_pow_sub_succ hlt i
  have e : 2 ^ 8 - (v % 256 + 1) = 255 - v % 256 := by omega
  have hm : (v % 256).testBit i = v.testBit i := by
    have := Nat.testBit_mod_two_pow v 8 i
    simpa [hi] using this
  rw [e, hm] at h
  simpa [hi] using h

/-- The test `m_mux_data & 8` after `mcu_io_mux_w v` succeeds exactly when bit 3 of `v`
is clear. -/
theorem mux_bit3 (s : gms_2layers_state) (v : Nat) :
    ((s.mcu_io_mux_w v).m_mux_data &&& 8 ≠ 0) ↔ v.testBit 3 = false := by
  have h := land_pow_ne_zero (s.mcu_io_mux_w v).m_mux_data 3
  rw [show (8 : Nat) = 2 ^ 3 from rfl, h, mcu_io_mux_w_value, complement_testBit v 3 (by norm_num)]
  simp

/-- C28: `mcu_io_mux_w v` stores the 8-bit complement of `v`.  Afterwards, when bit 3 of
`v` is clear (and the YM2151 exists), `mcu_io_r` returns what the chip returns at
register `offset AND 1` and `mcu_io_w` writes the data to that register; when bit 3 of
`v` is set, `mcu_io_r` returns `0xff` for every offset and neither handler calls the
chip, the only possible call being the warning printed when bit 2 is set too.  So a read
reaches the chip exactly when bit 3 of `v` is clear. -/
theorem mcu_io_mux_active_low (s : gms_2layers_state) (v offset data : Nat) :
    (s.mcu_io_mux_w v).m_mux_data = 255 - v % 256
    ∧ (∀ i, i < 8 → (s.mcu_io_mux_w v).m_mux_data.testBit i = !v.testBit i)
    ∧ (v.testBit 3 = false → ∀ ym, s.m_ymsnd = some ym →
        (s.mcu_io_mux_w v).mcu_io_r offset
          = some (ym (offset &&& 1), (s.mcu_io_mux_w v).log (.ymsnd_read (offset &&& 1)))
        ∧ (s.mcu_io_mux_w v).mcu_io_w offset data
          = some ((s.mcu_io_mux_w v).log (.ymsnd_write (offset &&& 1) data)))
    ∧ (v.testBit 3 = true →
        ((s.mcu_io_mux_w v).mcu_io_r offset = some (0xff, s.mcu_io_mux_w v)
          ∨ (s.mcu_io_mux_w v).mcu_io_r offset
            = some (0xff, (s.mcu_io_mux_w v).log
                (.printf_mux_data_R (s.mcu_io_mux_w v).m_mux_data)))
        ∧ ((s.mcu_io_mux_w v).mcu_io_w offset data = some (s.mcu_io_mux_w v)
          ∨ (s.mcu_io_mux_w v).mcu_io_w offset data
            = some ((s.mcu_io_mux_w v).log
                (.printf_mux_data_W (s.mcu_io_mux_w v).m_mux_data))))
    ∧ (∀ ym, s.m_ymsnd = some ym →
        ((∃ value s2, (s.mcu_io_mux_w v).mcu_io_r offset = some (value, s2)
            ∧ s2.calls = (s.mcu_io_mux_w v).calls ++ [.ymsnd_read (offset &&& 1)])
          ↔ v.testBit 3 = false)) := by
  have hbit := mux_bit3 s v
  have hym : (s.mcu_io_mux_w v).m_ymsnd = s.m_ymsnd := rfl
  have part3 : v.testBit 3 = false → ∀ ym, s.m_ymsnd = some ym →
      (s.mcu_io_mux_w v).mcu_io_r offset
        = some (ym (offset &&& 1), (s.mcu_io_mux_w v).log (.ymsnd_read (offset &&& 1)))
      ∧ (s.mcu_io_mux_w v).mcu_io_w offset data
        = some ((s.mcu_io_mux_w v).log (.ymsnd_write (offset &&& 1) data)) := by
    intro h3 ym hy
    have hc := hbit.2 h3
    unfold gms_2layers_state.mcu_io_r gms_2layers_state.mcu_io_w
    rw [if_pos hc, if_pos hc, hym, hy]
    exact ⟨rfl, rfl⟩
  have part4 : v.testBit 3 = true →
      ((s.mcu_io_mux_w v).mcu_io_r offset = some (0xff, s.mcu_io_mux_w v)
        ∨ (s.mcu_io_mux_w v).mcu_io_r offset
          = some (0xff, (s.mcu_io_mux_w v).log
              (.printf_mux_data_R (s.mcu_io_mux_w v).m_mux_data)))
      ∧ ((s.mcu_io_mux_w v).mcu_io_w offset data = some (s.mcu_io_mux_w v)
        ∨ (s.mcu_io_mux_w v).mcu_io_w offset data
          = some ((s.mcu_io_mux_w v).log
              (.printf_mux_data_W (s.mcu_io_mux_w v).m_mux_data))) := by
    intro h3
    have hc : ¬ ((s.mcu_io_mux_w v).m_mux_data &&& 8 ≠ 0) := by
      rw [hbit, h3]
      simp
    unfold gms_2layers_state.mcu_io_r gms_2layers_state.mcu_io_w
    rw [if_neg hc, if_neg hc]
    by_cases h4 : (s.mcu_io_mux_w v).m_mux_data &&& 4 ≠ 0
    · rw [if_pos h4, if_pos h4]
      exact ⟨Or.inl rfl, Or.inl rfl⟩
    · rw [if_neg h4, if_neg h4]
      exact ⟨Or.inr rfl, Or.inr rfl⟩
  refine ⟨mcu_io_mux_w_value s v, ?_, part3, part4, ?_⟩
  · intro i hi
    rw [mcu_io_mux_w_value]
    exact complement_testBit v i hi
  · intro ym hy
    constructor
    · rintro ⟨value, s2, hr, hcalls⟩
      by_contra h3
      have h3t : v.testBit 3 = true := by simpa using h3
      rcases (part4 h3t).1 with h | h
      · rw [h] at hr
        have e : s2 = s.mcu_io_mux_w v := by
          have := Option.some.inj hr
          exact (congrArg Prod.snd this).symm
        rw [e] at hcalls
        have hl := congrArg List.length hcalls
        simp at hl
      · rw [h] at hr
        have e : s2 = (s.mcu_io_mux_w v).log
            (.printf_mux_data_R (s.mcu_io_mux_w v).m_mux_data) := by
          have := Option.some.inj hr
          exact (congrArg Prod.snd this).symm
        rw [e] at hcalls
        have hl : [device_call.printf_mux_data_R (s.mcu_io_mux_w v).m_mux_data]
            = [device_call.ymsnd_read (offset &&& 1)] :=
          List.append_cancel_left hcalls
        simp at hl
    · intro h3
      exact ⟨_, _, (part3 h3 ym hy).1, rfl⟩

/-- C28 at concrete inputs: writing `0xf7` (bit 3 clear) stores 8 and routes a read at
offset 3 to register 1 of the chip; writing `0xff` stores 0 and the read returns `0xff`
after a warning; writing `0x0b` stores `0xf4` and the read returns `0xff` silently. -/
theorem mcu_io_mux_active_low_witness :
    (sample_gms_state.mcu_io_mux_w 0xf7).m_mux_data = 8
    ∧ ((sample_gms_state.mcu_io_mux_w 0xf7).mcu_io_r 3).map (fun p => (p.1, p.2.calls))
        = some (0x81, [.ymsnd_read 1])
    ∧ ((sample_gms_state.mcu_io_mux_w 0xff).mcu_io_r 3).map (fun p => (p.1, p.2.calls))
        = some (0xff, [.printf_mux_data_R 0])
    ∧ ((sample_gms_state.mcu_io_mux_w 0x0b).mcu_io_r 3).map (fun p => (p.1, p.2.calls))
        = some (0xff, []) :=
  ⟨(mcu_io_mux_active_low sample_gms_state 0xf7 3 0).1.trans (by decide),
   by decide, by decide, by decide⟩

/-- A single bit moved down to bit 0. -/
theorem land_pow_shift (x i : Nat) : (x &&& 2 ^ i) >>> i = x / 2 ^ i % 2 := by
  rw [Nat.and_two_pow, Nat.toNat_testBit, Nat.shiftRight_eq_div_pow,
    Nat.mul_div_cancel _ (Nat.two_pow_pos i)]

/-- What `eeprom_w` does when the access covers the low byte, in terms of the bits of
`data`. -/
theorem eeprom_w_accessing (ACCESSING_BITS_0_7 : Nat → Bool) (s : gms_2layers_state)
    (offset data mem_mask : Nat) (h : ACCESSING_BITS_0_7 mem_mask = true) :
    s.eeprom_w ACCESSING_BITS_0_7 offset data mem_mask
      = ((s.log (.eeprom_di_write (data / 4 % 2))).log
          (.eeprom_cs_write (if data % 2 = 1 then .ASSERT_LINE else .CLEAR_LINE))).log
          (.eeprom_clk_write (if data / 2 % 2 = 1 then .ASSERT_LINE else .CLEAR_LINE)) := by
  have hdi : (data &&& 0x04) >>> 2 = data / 4 % 2 := land_pow_shift data 2
  have hcs : (data &&& 0x01 ≠ 0) ↔ data % 2 = 1 := by
    rw [show (0x01 : Nat) = 2 ^ 0 from rfl, land_pow_ne_zero, Nat.testBit_to_div_mod]
    simp
  have hclk : (data &&& 0x02 ≠ 0) ↔ data / 2 % 2 = 1 := by
    have h1 := land_pow_ne_zero data 1
    rw [Nat.testBit_to_div_mod] at h1
    simpa using h1
  unfold gms_2layers_state.eeprom_w
  simp only [h, if_true, hdi, hcs, hclk]

/-- C29: `eeprom_w` drives the EEPROM lines from the low three bits of `data` only.  When
the access does not cover bits 0-7 (the test `ACCESSING_BITS_0_7` on `mem_mask` fails)
the state is unchanged and no line is written; otherwise it writes, in this order, bit 2
of `data` to data-in, asserts chip-select exactly when bit 0 is set and asserts the
clock exactly when bit 1 is set, and the outcome is the same for every offset and every
`data` with the same low three bits. -/
theorem eeprom_w_low_byte (ACCESSING_BITS_0_7 : Nat → Bool) (s : gms_2layers_state)
    (offset data mem_mask : Nat) :
    (ACCESSING_BITS_0_7 mem_mask = false →
        s.eeprom_w ACCESSING_BITS_0_7 offset data mem_mask = s)
    ∧ (ACCESSING_BITS_0_7 mem_mask = true →
        (s.eeprom_w ACCESSING_BITS_0_7 offset data mem_mask).calls
          = s.calls ++ [.eeprom_di_write (data.testBit 2).toNat,
              .eeprom_cs_write (if data.testBit 0 = true then .ASSERT_LINE else .CLEAR_LINE),
              .eeprom_clk_write (if data.testBit 1 = true then .ASSERT_LINE else .CLEAR_LINE)])
    ∧ (s.eeprom_w ACCESSING_BITS_0_7 offset data mem_mask).m_tilebank = s.m_tilebank
    ∧ (s.eeprom_w ACCESSING_BITS_0_7 offset data mem_mask).m_mux_data = s.m_mux_data
    ∧ (s.eeprom_w ACCESSING_BITS_0_7 offset data mem_mask).m_input_matrix = s.m_input_matrix
    ∧ (∀ offset2 data2 : Nat, data2 % 8 = data % 8 →
        s.eeprom_w ACCESSING_BITS_0_7 offset2 data2 mem_mask
          = s.eeprom_w ACCESSING_BITS_0_7 offset data mem_mask) := by
  have hfalse : ∀ o d : Nat, ACCESSING_BITS_0_7 mem_mask = false →
      s.eeprom_w ACCESSING_BITS_0_7 o d mem_mask = s := by
    intro o d h
    unfold gms_2layers_state.eeprom_w
    simp [h]
  have frame : (s.eeprom_w ACCESSING_BITS_0_7 offset data mem_mask).m_tilebank = s.m_tilebank
      ∧ (s.eeprom_w ACCESSING_BITS_0_7 offset data mem_mask).m_mux_data = s.m_mux_data
      ∧ (s.eeprom_w ACCESSING_BITS_0_7 offset data mem_mask).m_input_matrix
          = s.m_input_matrix := by
    cases h : ACCESSING_BITS_0_7 mem_mask
    · rw [hfalse offset data h]
      exact ⟨rfl, rfl, rfl⟩
    · rw [eeprom_w_accessing ACCESSING_BITS_0_7 s offset data mem_mask h]
      exact ⟨rfl, rfl, rfl⟩
  refine ⟨hfalse offset data, ?_, frame.1, frame.2.1, frame.2.2, ?_⟩
  · intro h
    rw [eeprom_w_accessing ACCESSING_BITS_0_7 s offset data mem_mask h]
    have t0 : data.testBit 0 = decide (data % 2 = 1) := by
      rw [Nat.testBit_to_div_mod]
      simp
    have t1 : data.testBit 1 = decide (data / 2 % 2 = 1) := by
      rw [Nat.testBit_to_div_mod]
    have t2 : (data.testBit 2).toNat = data / 4 % 2 := Nat.toNat_testBit data 2
    simp [gms_2layers_state.log, t0, t1, t2]
  · intro offset2 data2 hd
    cases h : ACCESSING_BITS_0_7 mem_mask
    · rw [hfalse offset data h, hfalse offset2 data2 h]
    · rw [eeprom_w_accessing ACCESSING_BITS_0_7 s offset data mem_mask h,
        eeprom_w_accessing ACCESSING_BITS_0_7 s offset2 data2 mem_mask h]
      have e1 : data2 / 4 % 2 = data / 4 % 2 := by omega
      have e2 : data2 % 2 = data % 2 := by omega
      have e3 : data2 / 2 % 2 = data / 2 % 2 := by omega
      rw [e1, e2, e3]

/-- C29 at concrete inputs, with the low-byte test taken as "some of bits 0-7 of the mask
are set": the word `0xfff5` written with mask `0xffff` sets data-in to 1, asserts
chip-select and clears the clock; written with mask `0xff00` it changes nothing. -/
theorem eeprom_w_low_byte_witness :
    (sample_gms_state.eeprom_w (fun m => m &&& 0xff != 0) 0 0xfff5 0xffff).calls
      = [.eeprom_di_write 1, .eeprom_cs_write .ASSERT_LINE, .eeprom_clk_write .CLEAR_LINE]
    ∧ (sample_gms_state.eeprom_w (fun m => m &&& 0xff != 0) 0 0xfff5 0xff00).calls = [] :=
  ⟨((eeprom_w_low_byte (fun m => m &&& 0xff != 0) sample_gms_state 0 0xfff5 0xffff).2.1
      (by decide)).trans (by decide),
   congrArg gms_2layers_state.calls
     ((eeprom_w_low_byte (fun m => m &&& 0xff != 0) sample_gms_state 0 0xfff5 0xff00).1
       (by decide))⟩
